import Mathlib

/-!
# exattr-maya: scanner, value utilities, command layer and table models

A shallow embedding of `ExtraAttrScanner`, `MayaUtils`, `ExtraAttrUI::getEnumFieldNames`,
`ExtraAttrUI::setAttributeValue`, `ExtraAttrManagerCmd`, `ExtraAttrModel` and
`NodeAttributeModel`.  The library calls of the user interface and the table models
(`QString::fromUtf8`, `QString::toUtf8`, the base-class `flags`, `std::sort`) are arguments
of the methods that make them; `qtFromUtf8`, `qtToUtf8` and `std.sort` follow the
libraries themselves (the UTF-8 codec of Qt, `std::sort` of the GNU C++ library).  The host application is closed: every call into it is a
field of `Host` (what the host answers) or of `AttrObj` (what the host answers about
one attribute object), and every call that changes the host is recorded as an `Effect`.
The answers are functions: within one operation the host answers the same call the same
way.  The counters `usageCount` and `m_totalNodesScanned` are 32-bit `int`s and the enum
loops count in 16-bit `short`s; both are integers with the wrap-around written out.
-/

namespace ExAttr

/-! ## Host value types -/

/-- Status codes of the host (`MS::kSuccess`, `MS::kFailure`, ...). -/
inductive MStatus where
  | kSuccess
  | kFailure
  | kInsufficientMemory
  | kInvalidParameter
  | kLicenseFailure
  | kUnknownParameter
  | kNotImplemented
  | kNotFound
  | kEndOfFile
deriving DecidableEq, Repr

/-- The value of a default-constructed status, as in `MStatus status;`:
the host SDK initialises it to `kSuccess`. -/
def MStatus.init : MStatus := .kSuccess

/-- An `MString`, as the bytes of `asChar()` before the terminator. -/
abbrev MString := List Nat

/-- A `QString`, as its UTF-16 code units. -/
abbrev QString := List Nat

/-- An ASCII C string literal as an `MString`. -/
def mstr (s : String) : MString := s.data.map Char.toNat

/-- The sign of C `strcmp` on the two byte strings. -/
def strcmp : MString → MString → Int
  | [], [] => 0
  | [], _ :: _ => -1
  | _ :: _, [] => 1
  | a :: as, b :: bs => if a < b then -1 else if b < a then 1 else strcmp as bs

/-- The functor `MStringLess`: `strcmp(a.asChar(), b.asChar()) < 0`. -/
def MStringLess (a b : MString) : Bool := decide (strcmp a b < 0)

/-- The type tag `MFn::Type` of an object; tags the code never names are `kOther`. -/
inductive MFnType where
  | kInvalid
  | kNumericAttribute
  | kTypedAttribute
  | kEnumAttribute
  | kMessageAttribute
  | kCompoundAttribute
  | kUnitAttribute
  | kOther (code : Nat)
deriving DecidableEq, Repr

/-- The numeric kinds `MFnNumericData::Type`; `kLong` is the same value as `kInt`. -/
inductive MFnNumericData where
  | kInvalid
  | kBoolean
  | kByte
  | kChar
  | kShort
  | k2Short
  | k3Short
  | kInt
  | k2Int
  | k3Int
  | kInt64
  | kFloat
  | k2Float
  | k3Float
  | kDouble
  | k2Double
  | k3Double
  | k4Double
  | kAddr
  | kLast
deriving DecidableEq, Repr

/-- The host declares `kLong = kInt`. -/
abbrev MFnNumericData.kLong : MFnNumericData := .kInt

/-- The data kinds `MFnData::Type` of a typed attribute. -/
inductive MFnData where
  | kInvalid
  | kNumeric
  | kPlugin
  | kPluginGeometry
  | kString
  | kMatrix
  | kStringArray
  | kDoubleArray
  | kFloatArray
  | kIntArray
  | kPointArray
  | kVectorArray
  | kMatrixArray
  | kComponentList
  | kMesh
  | kLattice
  | kNurbsCurve
  | kNurbsSurface
  | kSphere
  | kDynArrayAttrs
  | kDynSweptGeometry
  | kSubdSurface
  | kNObject
  | kNId
  | kAny
  | kLast
deriving DecidableEq, Repr

/-- The unit kinds `MFnUnitAttribute::Type`. -/
inductive MFnUnitAttribute where
  | kInvalid
  | kAngle
  | kDistance
  | kTime
  | kLast
deriving DecidableEq, Repr

/-- A `float` value; the code only moves it between host calls. -/
structure MFloat where
  bits : Nat
deriving DecidableEq, Repr

/-- A `double` value; the code only moves it between host calls. -/
structure MDouble where
  bits : Nat
deriving DecidableEq, Repr

/-- An `MObject` in the role of a dependency node: the null object or a handle. -/
inductive NodeObj where
  | kNullObj
  | node (id : Nat)
deriving DecidableEq, Repr

/-- The call `MObject::isNull()` on a node object. -/
def NodeObj.isNull : NodeObj → Bool
  | .kNullObj => true
  | .node _ => false

/-- An `MObject` in the role of an attribute, as the answers the host gives about it:
`isNull()`, `apiType()`, the status of attaching `MFnAttribute` and what that function
set reports, and what the numeric, typed, unit and enum function sets report. -/
structure AttrObj where
  isNull : Bool
  apiType : MFnType
  fnAttrStatus : MStatus
  isDynamic : Bool
  isDynamicStatus : MStatus
  name : MString
  nameStatus : MStatus
  isArray : Bool
  keyable : Bool
  numericUnitType : MFnNumericData
  typedAttrType : MFnData
  unitUnitType : MFnUnitAttribute
  fnEnumStatus : MStatus
  enumMin : Int
  enumMinStatus : MStatus
  enumMax : Int
  enumMaxStatus : MStatus
  enumFieldName : Int → MString × MStatus

/-- An `MPlug`: the attribute of one node. -/
structure MPlug where
  node : NodeObj
  attr : AttrObj

/-- A value handed to one of the overloads of `MPlug::setValue`. -/
inductive PlugValue where
  | bool (b : Bool)
  | int (i : Int)
  | float (f : MFloat)
  | double (d : MDouble)
  | short (s : Int)
  | string (s : MString)
deriving DecidableEq, Repr

/-- The answers of the host to the calls the plugin makes. -/
structure Host where
  /-- Status of constructing `MItDependencyNodes`. -/
  nodeItStatus : MStatus
  /-- The results of `thisNode(&status)` at the successive positions of the iterator. -/
  nodeItNodes : List (NodeObj × MStatus)
  /-- Status of attaching `MFnDependencyNode` to a node object. -/
  fnDepStatus : NodeObj → MStatus
  attributeCount : NodeObj → Nat × MStatus
  attributeAt : NodeObj → Nat → AttrObj × MStatus
  attributeByName : NodeObj → MString → AttrObj × MStatus
  nodeName : NodeObj → MString
  nodeTypeName : NodeObj → MString
  findPlugStatus : NodeObj → AttrObj → MStatus
  /-- Outcomes of `MSelectionList::add(name)` and `getDependNode(0, node)`. -/
  selListAddStatus : MString → MStatus
  getDependNode : MString → NodeObj × MStatus
  /-- The overloads of `MPlug::getValue` and `MPlug::asString`. -/
  getBool : MPlug → Bool
  getInt : MPlug → Int
  getFloat : MPlug → MFloat
  getDouble : MPlug → MDouble
  getShort : MPlug → Int
  getString : MPlug → MString
  plugAsString : MPlug → MString
  /-- Status returned by `MPlug::setValue`. -/
  setValueStatus : MPlug → PlugValue → MStatus
  /-- The conversions `MString() + number` and `MString::asInt/asFloat/asDouble`. -/
  ofInt : Int → MString
  ofFloat : MFloat → MString
  ofDouble : MDouble → MString
  asInt : MString → Int
  asFloat : MString → MFloat
  asDouble : MString → MDouble
  /-- The object and status `create` gives on a fresh numeric, typed or enum attribute
  function set (the long and the short name are the same string in every call). -/
  createNumeric : MString → MFnNumericData → AttrObj × MStatus
  createTyped : MString → MFnData → AttrObj × MStatus
  createEnum : MString → AttrObj × MStatus
  /-- Statuses of the node calls `addAttribute` and `removeAttribute`. -/
  addAttributeStatus : NodeObj → AttrObj → MStatus
  removeAttributeStatus : NodeObj → AttrObj → MStatus

/-! ## Machine integers -/

/-- Conversion to a 32-bit `int`, wrapping. -/
def toInt32 (x : Int) : Int := (x + 2147483648) % 4294967296 - 2147483648

/-- Conversion to a 16-bit `short`, wrapping. -/
def toShort (x : Int) : Int := (x + 32768) % 65536 - 32768

/-! ## `std::map` keyed by `MString` under `MStringLess` -/

/-- A `std::map<MString, V, MStringLess>` as its entries in iteration order. -/
structure StdMap (V : Type) where
  entries : List (MString × V)

/-- Search of the entries for a key equivalent to `k` under `MStringLess`. -/
def findEntry {V : Type} (k : MString) : List (MString × V) → Option V
  | [] => none
  | (k', v) :: rest =>
    if !MStringLess k' k && !MStringLess k k' then some v else findEntry k rest

/-- Insertion or assignment at the position the ordering gives the key. -/
def assignEntry {V : Type} (k : MString) (v : V) : List (MString × V) → List (MString × V)
  | [] => [(k, v)]
  | (k', v') :: rest =>
    if MStringLess k k' then (k, v) :: (k', v') :: rest
    else if MStringLess k' k then (k', v') :: assignEntry k v rest
    else (k', v) :: rest

/-- The empty map, also the result of `clear()`. -/
def StdMap.empty {V : Type} : StdMap V := ⟨[]⟩

/-- The call `find(k)`, with `end()` as `none`. -/
def StdMap.find {V : Type} (m : StdMap V) (k : MString) : Option V := findEntry k m.entries

/-- The assignment `m[k] = v`. -/
def StdMap.assign {V : Type} (m : StdMap V) (k : MString) (v : V) : StdMap V :=
  ⟨assignEntry k v m.entries⟩

/-- The call `size()`. -/
def StdMap.size {V : Type} (m : StdMap V) : Nat := m.entries.length

/-! ## ExtraAttrScanner -/

/-- The record `AttributeInfo`. -/
structure AttributeInfo where
  name : MString
  typeName : MString
  apiType : MFnType
  usageCount : Int
  isArray : Bool
deriving DecidableEq, Repr

/-- The record `NodeAttributeValue`. -/
structure NodeAttributeValue where
  nodeName : MString
  nodeType : MString
  nodeObj : NodeObj
  valueStr : MString
deriving DecidableEq, Repr

/-- The members of `ExtraAttrScanner`. -/
structure ExtraAttrScanner where
  m_attributeInfoMap : StdMap AttributeInfo
  m_attrToNodesMap : StdMap (List NodeObj)
  m_totalNodesScanned : Int

/-- The method `ExtraAttrScanner::clearCache`. -/
def ExtraAttrScanner.clearCache (_s : ExtraAttrScanner) : ExtraAttrScanner :=
  ⟨StdMap.empty, StdMap.empty, 0⟩

/-- The method `ExtraAttrScanner::isExtraAttribute`. -/
def isExtraAttribute (attr : AttrObj) (_fnDep : NodeObj) : Bool :=
  if attr.isNull then false
  else if attr.fnAttrStatus ≠ .kSuccess then false
  else if attr.isDynamicStatus ≠ .kSuccess then false
  else attr.isDynamic

/-- The method `ExtraAttrScanner::getAttributeTypeName`. -/
def getAttributeTypeName (attr : AttrObj) : MString :=
  if attr.isNull then mstr "unknown"
  else
    match attr.apiType with
    | .kNumericAttribute =>
      match attr.numericUnitType with
      | .kBoolean => mstr "bool"
      | .kInt => mstr "int"
      | .kFloat => mstr "float"
      | .kDouble => mstr "double"
      | .kShort => mstr "short"
      | .k2Float => mstr "float2"
      | .k2Double => mstr "double2"
      | .k3Float => mstr "float3"
      | .k3Double => mstr "double3"
      | _ => mstr "numeric"
    | .kTypedAttribute =>
      match attr.typedAttrType with
      | .kString => mstr "string"
      | .kMatrix => mstr "matrix"
      | .kStringArray => mstr "stringArray"
      | .kDoubleArray => mstr "doubleArray"
      | .kIntArray => mstr "intArray"
      | .kPointArray => mstr "pointArray"
      | .kVectorArray => mstr "vectorArray"
      | _ => mstr "typed"
    | .kEnumAttribute => mstr "enum"
    | .kMessageAttribute => mstr "message"
    | .kCompoundAttribute => mstr "compound"
    | .kUnitAttribute =>
      match attr.unitUnitType with
      | .kAngle => mstr "angle"
      | .kDistance => mstr "distance"
      | .kTime => mstr "time"
      | _ => mstr "unit"
    | _ => mstr "unknown"

/-- The end of the loop body of `scanNode` (lines 93 to 111): the attribute `attr` of
`depNode`, named `attrName`, is entered into both maps. -/
def recordAttribute (s : ExtraAttrScanner) (depNode : NodeObj) (attr : AttrObj)
    (attrName : MString) : ExtraAttrScanner :=
  match s.m_attributeInfoMap.find attrName with
  | none =>
    let attrInfo : AttributeInfo :=
      { name := attrName, typeName := getAttributeTypeName attr, apiType := attr.apiType,
        usageCount := 1, isArray := attr.isArray }
    { s with
      m_attributeInfoMap := s.m_attributeInfoMap.assign attrName attrInfo
      m_attrToNodesMap := (s.m_attrToNodesMap.assign attrName []).assign attrName [depNode] }
  | some info =>
    { s with
      m_attributeInfoMap :=
        s.m_attributeInfoMap.assign attrName { info with usageCount := toInt32 (info.usageCount + 1) }
      m_attrToNodesMap :=
        match s.m_attrToNodesMap.find attrName with
        | some nodes => s.m_attrToNodesMap.assign attrName (nodes ++ [depNode])
        | none => s.m_attrToNodesMap.assign attrName [depNode] }

/-- One pass of the loop body of `scanNode`, for attribute index `i`. -/
def scanAttribute (h : Host) (depNode : NodeObj) (s : ExtraAttrScanner) (i : Nat) :
    ExtraAttrScanner :=
  let attr := (h.attributeAt depNode i).1
  let status := (h.attributeAt depNode i).2
  if status ≠ .kSuccess ∨ attr.isNull = true then s
  else if isExtraAttribute attr depNode = false then s
  else if attr.fnAttrStatus ≠ .kSuccess then s
  else if attr.nameStatus ≠ .kSuccess ∨ attr.name.length = 0 then s
  else recordAttribute s depNode attr attr.name

/-- The method `ExtraAttrScanner::scanNode`. -/
def scanNode (h : Host) (s : ExtraAttrScanner) (depNode : NodeObj) : ExtraAttrScanner :=
  if depNode.isNull then s
  else if h.fnDepStatus depNode ≠ .kSuccess then s
  else if (h.attributeCount depNode).2 ≠ .kSuccess then s
  else (List.range (h.attributeCount depNode).1).foldl (scanAttribute h depNode) s

/-- One pass of the loop of `scanScene` over the node iterator. -/
def scanStep (h : Host) (s : ExtraAttrScanner) (it : NodeObj × MStatus) : ExtraAttrScanner :=
  if it.2 ≠ .kSuccess then s
  else
    let s1 := scanNode h s it.1
    { s1 with m_totalNodesScanned := toInt32 (s1.m_totalNodesScanned + 1) }

/-- A call the plugin makes that changes the host or shows something to the user. -/
inductive Effect where
  | displayError (msg : MString)
  | displayInfo (msg : MString)
  | setValue (plug : MPlug) (value : PlugValue)
  | addAttribute (node : NodeObj) (attr : AttrObj)
  | removeAttribute (node : NodeObj) (attr : AttrObj)
  | createUI
  | showUI
  | closeUI
  | setResult (line : MString)
  | setResultArray (lines : List MString)

/-- The method `ExtraAttrScanner::scanScene`: the returned flag, the scanner afterwards
and the messages displayed. -/
def scanScene (h : Host) (s : ExtraAttrScanner) : Bool × ExtraAttrScanner × List Effect :=
  let s0 := s.clearCache
  if h.nodeItStatus ≠ .kSuccess then
    (false, s0, [.displayError (mstr "Failed to create node iterator")])
  else
    let s1 := h.nodeItNodes.foldl (scanStep h) s0
    (true, s1,
      [.displayInfo (mstr "Scan complete. Found " ++ h.ofInt s1.m_attributeInfoMap.size
        ++ mstr " extra attributes in " ++ h.ofInt s1.m_totalNodesScanned ++ mstr " nodes.")])

/-- The method `ExtraAttrScanner::getAttributeValueAsString`. -/
def getAttributeValueAsString (h : Host) (node : NodeObj) (attr : AttrObj) : MString :=
  if node.isNull = true ∨ attr.isNull = true then mstr ""
  else if h.fnDepStatus node ≠ .kSuccess then mstr ""
  else if attr.fnAttrStatus ≠ .kSuccess then mstr ""
  else if attr.nameStatus ≠ .kSuccess then mstr ""
  else if h.findPlugStatus node attr ≠ .kSuccess then mstr ""
  else
    let plug : MPlug := ⟨node, attr⟩
    match attr.apiType with
    | .kNumericAttribute =>
      match attr.numericUnitType with
      | .kBoolean => if h.getBool plug then mstr "true" else mstr "false"
      | .kInt => h.ofInt (h.getInt plug)
      | .kFloat => h.ofFloat (h.getFloat plug)
      | .kDouble => h.ofDouble (h.getDouble plug)
      | .kShort => h.ofInt (h.getShort plug)
      | _ => h.plugAsString plug
    | .kTypedAttribute =>
      if attr.typedAttrType = .kString then h.getString plug else h.plugAsString plug
    | .kEnumAttribute =>
      let value := h.getShort plug
      let fieldName := attr.enumFieldName value
      if fieldName.2 = .kSuccess ∧ fieldName.1.length > 0 then fieldName.1
      else h.ofInt value
    | _ => h.plugAsString plug

/-- One pass of the loop of `getNodesWithAttribute` over the recorded nodes. -/
def nodeValueOf (h : Host) (attrName : MString) (node : NodeObj) : Option NodeAttributeValue :=
  if node.isNull then none
  else if h.fnDepStatus node ≠ .kSuccess then none
  else
    let attr := (h.attributeByName node attrName).1
    let status := (h.attributeByName node attrName).2
    some
      { nodeObj := node
        nodeName := h.nodeName node
        nodeType := h.nodeTypeName node
        valueStr :=
          if status = .kSuccess ∧ attr.isNull = false then getAttributeValueAsString h node attr
          else mstr "" }

/-- The method `ExtraAttrScanner::getNodesWithAttribute`, asked of the host `h`. -/
def getNodesWithAttribute (h : Host) (s : ExtraAttrScanner) (attrName : MString) :
    List NodeAttributeValue :=
  match s.m_attrToNodesMap.find attrName with
  | none => []
  | some nodes =>
    match s.m_attributeInfoMap.find attrName with
    | none => []
    | some _ => nodes.filterMap (nodeValueOf h attrName)

/-- The method `ExtraAttrScanner::getStatistics`: `(totalAttrs, totalNodes)`. -/
def getStatistics (s : ExtraAttrScanner) : Int × Int :=
  (toInt32 s.m_attributeInfoMap.size, s.m_totalNodesScanned)

/-! ## MayaUtils -/

/-- The function `MayaUtils::getNodeFromName`: the flag and `outNode`. -/
def getNodeFromName (h : Host) (nodeName : MString) : Bool × NodeObj :=
  if h.selListAddStatus nodeName ≠ .kSuccess then (false, .kNullObj)
  else if (h.getDependNode nodeName).2 ≠ .kSuccess then (false, (h.getDependNode nodeName).1)
  else (true, (h.getDependNode nodeName).1)

/-- The function `MayaUtils::getDependencyNodeFromName`: the flag and the node `outFnDep`
is attached to. -/
def getDependencyNodeFromName (h : Host) (nodeName : MString) : Bool × NodeObj :=
  if (getNodeFromName h nodeName).1 = false then (false, .kNullObj)
  else if h.fnDepStatus (getNodeFromName h nodeName).2 ≠ .kSuccess then
    (false, (getNodeFromName h nodeName).2)
  else (true, (getNodeFromName h nodeName).2)

/-- The loop `for (short i = minValue; i <= maxValue; ++i)` of
`setAttributeValueFromString`, which leaves at the first field named `value`.  The counter
is a `short`, so `++i` wraps; `65536` condition checks see every value the counter takes.
`some (some i)`: left at `i`; `some none`: ran to the end; `none`: still running. -/
def enumSearch (fieldName : Int → MString × MStatus) (value : MString) (maxValue : Int) :
    Nat → Int → Option (Option Int)
  | 0, _ => none
  | fuel + 1, i =>
    if i ≤ maxValue then
      if (fieldName i).2 = .kSuccess ∧ (fieldName i).1 = value then some (some i)
      else enumSearch fieldName value maxValue fuel (toShort (i + 1))
    else some none

/-- What `setAttributeValueFromString` returned and what it handed to `MPlug::setValue`. -/
structure SetResult where
  ok : Bool
  written : Option PlugValue
deriving DecidableEq, Repr

/-- A call of `plug.setValue(v)` followed by `return (status == MS::kSuccess)`. -/
def setValueAndReturn (h : Host) (plug : MPlug) (v : PlugValue) : SetResult :=
  ⟨decide (h.setValueStatus plug v = .kSuccess), some v⟩

/-- The function `MayaUtils::setAttributeValueFromString`; `none` when it does not return. -/
def setAttributeValueFromString (h : Host) (plug : MPlug) (attr : AttrObj) (value : MString) :
    Option SetResult :=
  let status := MStatus.init
  if attr.apiType = .kNumericAttribute then
    let numType := attr.numericUnitType
    if numType = .kBoolean then
      some (setValueAndReturn h plug (.bool (decide (value = mstr "true" ∨ value = mstr "1"))))
    else if numType = .kInt ∨ numType = .kLong then
      some (setValueAndReturn h plug (.int (h.asInt value)))
    else if numType = .kFloat then
      some (setValueAndReturn h plug (.float (h.asFloat value)))
    else if numType = .kDouble then
      some (setValueAndReturn h plug (.double (h.asDouble value)))
    else some ⟨decide (status = .kSuccess), none⟩
  else if attr.apiType = .kEnumAttribute then
    let minValue := if attr.enumMinStatus ≠ .kSuccess then 0 else toShort attr.enumMin
    let maxValue := if attr.enumMaxStatus ≠ .kSuccess then 255 else toShort attr.enumMax
    match enumSearch attr.enumFieldName value maxValue 65536 minValue with
    | none => none
    | some (some enumValue) => some (setValueAndReturn h plug (.short enumValue))
    | some none => some (setValueAndReturn h plug (.short (toShort (h.asInt value))))
  else if attr.apiType = .kTypedAttribute then
    some (setValueAndReturn h plug (.string value))
  else
    some (setValueAndReturn h plug (.string value))

/-! ## ExtraAttrUI::getEnumFieldNames -/

/-- The call `MFnAttribute::setKeyable(true)` on the attribute the function set holds. -/
def AttrObj.setKeyable (a : AttrObj) (b : Bool) : AttrObj := { a with keyable := b }

/-- The call `MFnEnumAttribute::addField(name, value)` on the attribute the function set
holds; only the field table is followed. -/
def AttrObj.addField (a : AttrObj) (fieldName : MString) (value : Int) : AttrObj :=
  { a with enumFieldName := fun i => if i = value then (fieldName, .kSuccess) else a.enumFieldName i }

/-- The nine flags of the command, named by their short form in `newSyntax`. -/
inductive Flag where
  | kScanFlag
  | kListFlag
  | kNodesFlag
  | kUIFlag
  | kCloseUIFlag
  | kEditFlag
  | kDeleteFlag
  | kAddFlag
  | kHelpFlag
deriving DecidableEq, Repr

/-- The `MArgDatabase` built from the syntax and the argument list: the status of
parsing and the answers of `isFlagSet` and `getFlagArgument`. -/
structure MArgDatabase where
  status : MStatus
  isFlagSet : Flag → Bool
  getFlagArgument : Flag → Nat → MString × MStatus

/-- The member of `ExtraAttrManagerCmd` the code reads and writes. -/
structure ExtraAttrManagerCmd where
  m_isUndoable : Bool
deriving DecidableEq, Repr

/-- The constructor `ExtraAttrManagerCmd()`, as called by `creator`. -/
def ExtraAttrManagerCmd.creator : ExtraAttrManagerCmd := ⟨false⟩

/-- The method `ExtraAttrManagerCmd::isUndoable`. -/
def ExtraAttrManagerCmd.isUndoable (c : ExtraAttrManagerCmd) : Bool := c.m_isUndoable

/-- The outcome of a command method: the status returned, the command object, whether the
singleton `ExtraAttrUI::s_instance` is set, and the effects in the order they happened. -/
structure CmdResult where
  status : MStatus
  cmd : ExtraAttrManagerCmd
  s_instance : Bool
  effects : List Effect

/-- The text `doHelp` displays. -/
def helpText : MString :=
  mstr ("exAttrManager - Extra Attribute Manager Command\n" ++
    "\n" ++
    "Usage:\n" ++
    "  exAttrManager [flags]\n" ++
    "\n" ++
    "Flags:\n" ++
    "  -scan/-s                         : Scan scene for extra attributes\n" ++
    "  -list/-ls                        : List all extra attributes\n" ++
    "  -nodes/-n <attrName>             : Get nodes with specific attribute\n" ++
    "  -ui/-showUI                      : Show UI window\n" ++
    "  -closeUI/-cui                    : Close UI window\n" ++
    "  -edit/-e <node> <attr> <value>   : Edit attribute value\n" ++
    "  -delete/-d <node> <attr>         : Delete attribute\n" ++
    "  -add/-a <node> <attr> <type>     : Add new attribute\n" ++
    "  -help/-h                         : Show this help\n" ++
    "\n" ++
    "Examples:\n" ++
    "  exAttrManager -scan;\n" ++
    "  exAttrManager -list;\n" ++
    "  exAttrManager -nodes \"myCustomAttr\";\n" ++
    "  exAttrManager -ui;\n" ++
    "  exAttrManager -edit \"pCube1\" \"myAttr\" \"100\";\n" ++
    "  exAttrManager -delete \"pCube1\" \"oldAttr\";\n" ++
    "  exAttrManager -add \"pCube1\" \"newAttr\" \"double\";\n")

/-- The scanner a command method declares as a local: `ExtraAttrScanner scanner;`. -/
def freshScanner : ExtraAttrScanner := ⟨StdMap.empty, StdMap.empty, 0⟩

/-- The method `ExtraAttrManagerCmd::doScan`. -/
def doScan (h : Host) (c : ExtraAttrManagerCmd) (ui : Bool) : CmdResult :=
  let r := scanScene h freshScanner
  if r.1 = false then
    ⟨.kFailure, c, ui, r.2.2 ++ [.displayError (mstr "Failed to scan scene")]⟩
  else
    let stats := getStatistics r.2.1
    ⟨.kSuccess, c, ui, r.2.2 ++ [.setResult (mstr "Scan complete: Found " ++ h.ofInt stats.1
        ++ mstr " extra attributes in " ++ h.ofInt stats.2 ++ mstr " nodes")]⟩

/-- The method `ExtraAttrManagerCmd::doList`. -/
def doList (h : Host) (c : ExtraAttrManagerCmd) (ui : Bool) : CmdResult :=
  let r := scanScene h freshScanner
  if r.1 = false then
    ⟨.kFailure, c, ui, r.2.2 ++ [.displayError (mstr "Failed to scan scene")]⟩
  else
    ⟨.kSuccess, c, ui, r.2.2 ++ [.setResultArray (r.2.1.m_attributeInfoMap.entries.map fun pair =>
        pair.1 ++ mstr " (" ++ pair.2.typeName ++ mstr ") - " ++ h.ofInt pair.2.usageCount
          ++ mstr " nodes")]⟩

/-- The method `ExtraAttrManagerCmd::doGetNodes`. -/
def doGetNodes (h : Host) (c : ExtraAttrManagerCmd) (ui : Bool) (attrName : MString) :
    CmdResult :=
  let r := scanScene h freshScanner
  if r.1 = false then
    ⟨.kFailure, c, ui, r.2.2 ++ [.displayError (mstr "Failed to scan scene")]⟩
  else
    ⟨.kSuccess, c, ui, r.2.2 ++ [.setResultArray ((getNodesWithAttribute h r.2.1 attrName).map
        fun nodeValue =>
          nodeValue.nodeName ++ mstr " (" ++ nodeValue.nodeType ++ mstr ") = "
            ++ nodeValue.valueStr)]⟩

/-- The static method `ExtraAttrUI::instance`: whether the pointer returned is non-null,
whether `s_instance` is set afterwards, and the effects. -/
def ExtraAttrUI.instance (s_instance : Bool) : Bool × Bool × List Effect :=
  if s_instance = false then (true, true, [.createUI]) else (true, true, [])

/-- The method `ExtraAttrManagerCmd::doShowUI`. -/
def doShowUI (c : ExtraAttrManagerCmd) (ui : Bool) : CmdResult :=
  let r := ExtraAttrUI.instance ui
  if r.1 = false then
    ⟨.kFailure, c, r.2.1, r.2.2 ++ [.displayError (mstr "Failed to create UI instance")]⟩
  else ⟨.kSuccess, c, r.2.1, r.2.2 ++ [.showUI]⟩

/-- The method `ExtraAttrManagerCmd::doCloseUI`. -/
def doCloseUI (c : ExtraAttrManagerCmd) (ui : Bool) : CmdResult :=
  let r := ExtraAttrUI.instance ui
  if r.1 = true then ⟨.kSuccess, c, r.2.1, r.2.2 ++ [.closeUI]⟩
  else ⟨.kSuccess, c, r.2.1, r.2.2⟩

/-- The method `ExtraAttrManagerCmd::doEdit`; `none` when it does not return. -/
def doEdit (h : Host) (c : ExtraAttrManagerCmd) (ui : Bool) (nodeName attrName value : MString) :
    Option CmdResult :=
  let fnDep := getDependencyNodeFromName h nodeName
  if fnDep.1 = false then
    some ⟨.kFailure, c, ui, [.displayError (mstr "Node not found: " ++ nodeName)]⟩
  else
    let attr := (h.attributeByName fnDep.2 attrName).1
    let status := (h.attributeByName fnDep.2 attrName).2
    if status ≠ .kSuccess ∨ attr.isNull = true then
      some ⟨.kFailure, c, ui, [.displayError (mstr "Attribute not found: " ++ attrName)]⟩
    else if h.findPlugStatus fnDep.2 attr ≠ .kSuccess then
      some ⟨h.findPlugStatus fnDep.2 attr, c, ui, [.displayError (mstr "Failed to find plug")]⟩
    else
      let plug : MPlug := ⟨fnDep.2, attr⟩
      match setAttributeValueFromString h plug attr value with
      | none => none
      | some r =>
        let writes := match r.written with
          | some v => [Effect.setValue plug v]
          | none => []
        if r.ok = false then
          some ⟨.kFailure, c, ui, writes ++ [.displayError (mstr "Failed to set attribute value")]⟩
        else
          some ⟨.kSuccess, { c with m_isUndoable := true }, ui,
            writes ++ [.displayInfo (mstr "Set " ++ nodeName ++ mstr "." ++ attrName ++ mstr " = "
              ++ value)]⟩

/-- The method `ExtraAttrManagerCmd::doDelete`. -/
def doDelete (h : Host) (c : ExtraAttrManagerCmd) (ui : Bool) (nodeName attrName : MString) :
    CmdResult :=
  let fnDep := getDependencyNodeFromName h nodeName
  if fnDep.1 = false then
    ⟨.kFailure, c, ui, [.displayError (mstr "Node not found: " ++ nodeName)]⟩
  else
    let attr := (h.attributeByName fnDep.2 attrName).1
    let status := (h.attributeByName fnDep.2 attrName).2
    if status ≠ .kSuccess ∨ attr.isNull = true then
      ⟨.kFailure, c, ui, [.displayError (mstr "Attribute not found: " ++ attrName)]⟩
    else if h.removeAttributeStatus fnDep.2 attr ≠ .kSuccess then
      ⟨h.removeAttributeStatus fnDep.2 attr, c, ui,
        [.removeAttribute fnDep.2 attr, .displayError (mstr "Failed to remove attribute")]⟩
    else
      ⟨.kSuccess, { c with m_isUndoable := true }, ui,
        [.removeAttribute fnDep.2 attr,
         .displayInfo (mstr "Deleted attribute: " ++ nodeName ++ mstr "." ++ attrName)]⟩

/-- The `if`/`else if` chain of `doAdd` that creates the attribute object (lines 344 to
390): the object to add, or the status and message it returns with. -/
def createForType (h : Host) (attrName attrType : MString) : Except (MStatus × MString) AttrObj :=
  if attrType = mstr "double" ∨ attrType = mstr "float" then
    if (h.createNumeric attrName .kDouble).2 ≠ .kSuccess then
      .error ((h.createNumeric attrName .kDouble).2, mstr "Failed to create numeric attribute")
    else .ok ((h.createNumeric attrName .kDouble).1.setKeyable true)
  else if attrType = mstr "int" ∨ attrType = mstr "long" then
    if (h.createNumeric attrName .kInt).2 ≠ .kSuccess then
      .error ((h.createNumeric attrName .kInt).2, mstr "Failed to create numeric attribute")
    else .ok ((h.createNumeric attrName .kInt).1.setKeyable true)
  else if attrType = mstr "bool" ∨ attrType = mstr "boolean" then
    if (h.createNumeric attrName .kBoolean).2 ≠ .kSuccess then
      .error ((h.createNumeric attrName .kBoolean).2, mstr "Failed to create numeric attribute")
    else .ok ((h.createNumeric attrName .kBoolean).1.setKeyable true)
  else if attrType = mstr "string" then
    if (h.createTyped attrName .kString).2 ≠ .kSuccess then
      .error ((h.createTyped attrName .kString).2, mstr "Failed to create typed attribute")
    else .ok (h.createTyped attrName .kString).1
  else if attrType = mstr "enum" then
    if (h.createEnum attrName).2 ≠ .kSuccess then
      .error ((h.createEnum attrName).2, mstr "Failed to create enum attribute")
    else .ok (((h.createEnum attrName).1.addField (mstr "option1") 0).addField (mstr "option2") 1)
  else .error (.kFailure, mstr "Unsupported attribute type: " ++ attrType)

/-- The method `ExtraAttrManagerCmd::doAdd`. -/
def doAdd (h : Host) (c : ExtraAttrManagerCmd) (ui : Bool) (nodeName attrName attrType : MString) :
    CmdResult :=
  let fnDep := getDependencyNodeFromName h nodeName
  if fnDep.1 = false then
    ⟨.kFailure, c, ui, [.displayError (mstr "Node not found: " ++ nodeName)]⟩
  else
    match createForType h attrName attrType with
    | .error e => ⟨e.1, c, ui, [.displayError e.2]⟩
    | .ok attr =>
      if h.addAttributeStatus fnDep.2 attr ≠ .kSuccess then
        ⟨h.addAttributeStatus fnDep.2 attr, c, ui,
          [.addAttribute fnDep.2 attr, .displayError (mstr "Failed to add attribute to node")]⟩
      else
        ⟨.kSuccess, { c with m_isUndoable := true }, ui,
          [.addAttribute fnDep.2 attr,
           .displayInfo (mstr "Added attribute: " ++ nodeName ++ mstr "." ++ attrName ++ mstr " ("
             ++ attrType ++ mstr ")")]⟩

/-- The method `ExtraAttrManagerCmd::doHelp`. -/
def doHelp (c : ExtraAttrManagerCmd) (ui : Bool) : CmdResult :=
  ⟨.kSuccess, c, ui, [.displayInfo helpText]⟩

/-- The method `ExtraAttrManagerCmd::doIt`, given the argument database its first
statement builds; `none` when it does not return. -/
def doIt (h : Host) (c : ExtraAttrManagerCmd) (ui : Bool) (argData : MArgDatabase) :
    Option CmdResult :=
  if argData.status ≠ .kSuccess then
    some ⟨argData.status, c, ui, [.displayError (mstr "Error parsing arguments")]⟩
  else if argData.isFlagSet .kHelpFlag then some (doHelp c ui)
  else if argData.isFlagSet .kScanFlag then some (doScan h c ui)
  else if argData.isFlagSet .kListFlag then some (doList h c ui)
  else if argData.isFlagSet .kNodesFlag then
    let attrName := argData.getFlagArgument .kNodesFlag 0
    if attrName.2 ≠ .kSuccess then
      some ⟨attrName.2, c, ui, [.displayError (mstr "Invalid argument for -nodes flag")]⟩
    else some (doGetNodes h c ui attrName.1)
  else if argData.isFlagSet .kUIFlag then some (doShowUI c ui)
  else if argData.isFlagSet .kCloseUIFlag then some (doCloseUI c ui)
  else if argData.isFlagSet .kEditFlag then
    let nodeName := argData.getFlagArgument .kEditFlag 0
    let attrName := argData.getFlagArgument .kEditFlag 1
    let value := argData.getFlagArgument .kEditFlag 2
    if nodeName.2 ≠ .kSuccess then
      some ⟨nodeName.2, c, ui, [.displayError (mstr "Invalid node name for -edit flag")]⟩
    else if attrName.2 ≠ .kSuccess then
      some ⟨attrName.2, c, ui, [.displayError (mstr "Invalid attribute name for -edit flag")]⟩
    else if value.2 ≠ .kSuccess then
      some ⟨value.2, c, ui, [.displayError (mstr "Invalid value for -edit flag")]⟩
    else doEdit h c ui nodeName.1 attrName.1 value.1
  else if argData.isFlagSet .kDeleteFlag then
    let nodeName := argData.getFlagArgument .kDeleteFlag 0
    let attrName := argData.getFlagArgument .kDeleteFlag 1
    if nodeName.2 ≠ .kSuccess then
      some ⟨nodeName.2, c, ui, [.displayError (mstr "Invalid node name for -delete flag")]⟩
    else if attrName.2 ≠ .kSuccess then
      some ⟨attrName.2, c, ui, [.displayError (mstr "Invalid attribute name for -delete flag")]⟩
    else some (doDelete h c ui nodeName.1 attrName.1)
  else if argData.isFlagSet .kAddFlag then
    let nodeName := argData.getFlagArgument .kAddFlag 0
    let attrName := argData.getFlagArgument .kAddFlag 1
    let attrType := argData.getFlagArgument .kAddFlag 2
    if nodeName.2 ≠ .kSuccess then
      some ⟨nodeName.2, c, ui, [.displayError (mstr "Invalid node name for -add flag")]⟩
    else if attrName.2 ≠ .kSuccess then
      some ⟨attrName.2, c, ui, [.displayError (mstr "Invalid attribute name for -add flag")]⟩
    else if attrType.2 ≠ .kSuccess then
      some ⟨attrType.2, c, ui, [.displayError (mstr "Invalid attribute type for -add flag")]⟩
    else some (doAdd h c ui nodeName.1 attrName.1 attrType.1)
  else some (doShowUI c ui)

/-! ## The scene as the scanner meets it -/

/-- The nodes the loop of `scanScene` visits: those the iterator hands over with a success
status, in iteration order. -/
def visitedNodes (h : Host) : List NodeObj :=
  h.nodeItNodes.filterMap fun it => if it.2 = .kSuccess then some it.1 else none

/-- The attributes on a node: the non-null objects the host hands over with a success
status for the indices below the attribute count, when the node is a valid dependency
node whose attribute count can be read. -/
def attributesOf (h : Host) (node : NodeObj) : List AttrObj :=
  if node.isNull = false ∧ h.fnDepStatus node = .kSuccess ∧ (h.attributeCount node).2 = .kSuccess
  then
    (List.range (h.attributeCount node).1).filterMap fun i =>
      if (h.attributeAt node i).2 = .kSuccess ∧ (h.attributeAt node i).1.isNull = false then
        some (h.attributeAt node i).1
      else none
  else []

/-- An attribute is dynamic: it is non-null, an attribute function set attaches to it,
and the host reports its dynamic flag as true with a success status. -/
def AttrObj.dynamic (a : AttrObj) : Bool :=
  decide (a.isNull = false ∧ a.fnAttrStatus = .kSuccess ∧ a.isDynamicStatus = .kSuccess
    ∧ a.isDynamic = true)

/-- An attribute carries the name `n`: the host reports `n` as its name, with success. -/
def AttrObj.carries (a : AttrObj) (n : MString) : Bool :=
  decide (a.nameStatus = .kSuccess ∧ a.name = n)

/-- The pairs of a visited node and a dynamic attribute on it, in scan order. -/
def dynamicPairs (h : Host) : List (NodeObj × AttrObj) :=
  (visitedNodes h).flatMap fun node =>
    ((attributesOf h node).filter AttrObj.dynamic).map fun a => (node, a)

/-- The nodes of the pairs whose attribute carries the name `n`, in order. -/
def nodesCarrying (pairs : List (NodeObj × AttrObj)) (n : MString) : List NodeObj :=
  (pairs.filter fun p => p.2.carries n).map Prod.fst

/-- The loop invariant of the scan: the two maps account for the pairs met so far.  A
name is a key of neither map when it is empty or no pair carries it; otherwise the node
map holds the nodes of the pairs carrying it, in order, and the usage count is their
number as long as that number fits an `int`. -/
def Tracks (s : ExtraAttrScanner) (pairs : List (NodeObj × AttrObj)) : Prop :=
  ∀ name : MString,
    ((name = [] ∨ nodesCarrying pairs name = []) ∧ s.m_attributeInfoMap.find name = none
      ∧ s.m_attrToNodesMap.find name = none)
    ∨ (name ≠ [] ∧ nodesCarrying pairs name ≠ []
      ∧ s.m_attrToNodesMap.find name = some (nodesCarrying pairs name)
      ∧ ∃ info, s.m_attributeInfoMap.find name = some info
        ∧ ((nodesCarrying pairs name).length ≤ 2147483647 →
            info.usageCount = (nodesCarrying pairs name).length))

/-- The pair the scan of attribute index `i` of `node` meets, if any. -/
def pairsAt (h : Host) (node : NodeObj) (i : Nat) : List (NodeObj × AttrObj) :=
  if (h.attributeAt node i).2 = .kSuccess ∧ (h.attributeAt node i).1.isNull = false
      ∧ (h.attributeAt node i).1.dynamic = true then
    [(node, (h.attributeAt node i).1)]
  else []

/-- The pairs the scan of `node` meets. -/
def pairsOf (h : Host) (node : NodeObj) : List (NodeObj × AttrObj) :=
  ((attributesOf h node).filter AttrObj.dynamic).map fun a => (node, a)

/-! ## A sample scene -/

/-- The null object `MObject::kNullObj`, as the host answers about it. -/
def AttrObj.kNullObj : AttrObj :=
  { isNull := true, apiType := .kInvalid, fnAttrStatus := .kFailure, isDynamic := false,
    isDynamicStatus := .kFailure, name := [], nameStatus := .kFailure, isArray := false,
    keyable := false, numericUnitType := .kInvalid, typedAttrType := .kInvalid,
    unitUnitType := .kInvalid, fnEnumStatus := .kFailure, enumMin := 0,
    enumMinStatus := .kFailure, enumMax := 0, enumMaxStatus := .kFailure,
    enumFieldName := fun _ => ([], .kFailure) }

/-- A numeric attribute object of the given name, numeric kind and dynamic flag. -/
def sampleNumeric (name : MString) (t : MFnNumericData) (dynamic : Bool) : AttrObj :=
  { AttrObj.kNullObj with
    isNull := false, apiType := .kNumericAttribute, fnAttrStatus := .kSuccess,
    isDynamic := dynamic, isDynamicStatus := .kSuccess, name := name, nameStatus := .kSuccess,
    numericUnitType := t }

/-- A typed attribute object of the given name, data kind and dynamic flag. -/
def sampleTyped (name : MString) (t : MFnData) (dynamic : Bool) : AttrObj :=
  { AttrObj.kNullObj with
    isNull := false, apiType := .kTypedAttribute, fnAttrStatus := .kSuccess,
    isDynamic := dynamic, isDynamicStatus := .kSuccess, name := name, nameStatus := .kSuccess,
    typedAttrType := t }

/-- A dynamic enum attribute object with the fields `(value, name)` listed, whose least
and greatest values are `lo` and `hi`. -/
def sampleEnum (name : MString) (fields : List (Int × MString)) (lo hi : Int) : AttrObj :=
  { AttrObj.kNullObj with
    isNull := false, apiType := .kEnumAttribute, fnAttrStatus := .kSuccess,
    isDynamic := true, isDynamicStatus := .kSuccess, name := name, nameStatus := .kSuccess,
    fnEnumStatus := .kSuccess, enumMin := lo, enumMinStatus := .kSuccess, enumMax := hi,
    enumMaxStatus := .kSuccess,
    enumFieldName := fun i =>
      match fields.find? (fun f => f.1 = i) with
      | some f => (f.2, .kSuccess)
      | none => ([], .kInvalidParameter) }

/-- The decimal digits of a number, least significant first. -/
def decimalDigitsRev : Nat → Nat → List Nat
  | 0, _ => []
  | fuel + 1, n => (48 + n % 10) :: (if n / 10 = 0 then [] else decimalDigitsRev fuel (n / 10))

/-- Decimal text of an integer. -/
def decimalOfInt (i : Int) : MString :=
  if i < 0 then 45 :: (decimalDigitsRev (i.natAbs + 1) i.natAbs).reverse
  else (decimalDigitsRev (i.natAbs + 1) i.natAbs).reverse

/-- The value of the leading decimal digits of a byte string, after the value `acc`. -/
def decimalPrefix : Nat → MString → Nat
  | acc, [] => acc
  | acc, c :: cs => if 48 ≤ c ∧ c ≤ 57 then decimalPrefix (acc * 10 + (c - 48)) cs else acc

/-- The integer a byte string starts with (an optional minus sign, then decimal digits),
`0` when it starts with none. -/
def decimalAsInt : MString → Int
  | [] => 0
  | c :: cs => if c = 45 then - (decimalPrefix 0 cs : Int) else (decimalPrefix 0 (c :: cs) : Int)

/-- A host that fails every call and holds no node. -/
def blankHost : Host :=
  { nodeItStatus := .kFailure, nodeItNodes := [], fnDepStatus := fun _ => .kFailure,
    attributeCount := fun _ => (0, .kFailure),
    attributeAt := fun _ _ => (AttrObj.kNullObj, .kFailure),
    attributeByName := fun _ _ => (AttrObj.kNullObj, .kFailure),
    nodeName := fun _ => [], nodeTypeName := fun _ => [],
    findPlugStatus := fun _ _ => .kFailure, selListAddStatus := fun _ => .kFailure,
    getDependNode := fun _ => (.kNullObj, .kFailure), getBool := fun _ => false,
    getInt := fun _ => 0, getFloat := fun _ => ⟨0⟩, getDouble := fun _ => ⟨0⟩,
    getShort := fun _ => 0, getString := fun _ => [], plugAsString := fun _ => [],
    setValueStatus := fun _ _ => .kFailure, ofInt := decimalOfInt, ofFloat := fun _ => [],
    ofDouble := fun _ => [], asInt := decimalAsInt, asFloat := fun _ => ⟨0⟩,
    asDouble := fun _ => ⟨0⟩,
    createNumeric := fun _ _ => (AttrObj.kNullObj, .kFailure),
    createTyped := fun _ _ => (AttrObj.kNullObj, .kFailure),
    createEnum := fun _ => (AttrObj.kNullObj, .kFailure),
    addAttributeStatus := fun _ _ => .kFailure, removeAttributeStatus := fun _ _ => .kFailure }

/-- The attributes of the three nodes of the sample scene: node 0 (`pCube1`) has the
static `visibility` and the dynamic `myAttr` and `mode`; node 1 (`pSphere1`) has the
dynamic `myAttr` and `tag`; node 2 (`lambert1`) has only the static `color`. -/
def sampleAttrs : Nat → List AttrObj
  | 0 => [sampleNumeric (mstr "visibility") .kBoolean false,
          sampleNumeric (mstr "myAttr") .kDouble true,
          sampleEnum (mstr "mode") [(0, mstr "off"), (1, mstr "on")] 0 1]
  | 1 => [sampleNumeric (mstr "myAttr") .kDouble true,
          sampleTyped (mstr "tag") .kString true]
  | 2 => [sampleTyped (mstr "color") .kAny false]
  | _ => []

/-- The attributes of a node object of the sample scene. -/
def sampleAttrsOf : NodeObj → List AttrObj
  | .kNullObj => []
  | .node id => sampleAttrs id

/-- The names of the nodes of the sample scene. -/
def sampleNodeName : NodeObj → MString
  | .node 0 => mstr "pCube1"
  | .node 1 => mstr "pSphere1"
  | .node 2 => mstr "lambert1"
  | _ => []

/-- The node of the sample scene with the given name. -/
def sampleNodeNamed (name : MString) : Option NodeObj :=
  [NodeObj.node 0, .node 1, .node 2].find? fun n => sampleNodeName n = name

/-- The host of a scene with three nodes, in which every call succeeds. -/
def sampleHost : Host :=
  { blankHost with
    nodeItStatus := .kSuccess
    nodeItNodes := [(.node 0, .kSuccess), (.node 1, .kSuccess), (.node 2, .kSuccess)]
    fnDepStatus := fun n => if n.isNull then .kFailure else .kSuccess
    attributeCount := fun n => ((sampleAttrsOf n).length, .kSuccess)
    attributeAt := fun n i =>
      match (sampleAttrsOf n)[i]? with
      | some a => (a, .kSuccess)
      | none => (AttrObj.kNullObj, .kInvalidParameter)
    attributeByName := fun n name =>
      match (sampleAttrsOf n).find? (fun a => a.name = name) with
      | some a => (a, .kSuccess)
      | none => (AttrObj.kNullObj, .kInvalidParameter)
    nodeName := sampleNodeName
    nodeTypeName := fun _ => mstr "transform"
    findPlugStatus := fun _ _ => .kSuccess
    selListAddStatus := fun name => if (sampleNodeNamed name).isSome then .kSuccess else .kInvalidParameter
    getDependNode := fun name =>
      match sampleNodeNamed name with
      | some n => (n, .kSuccess)
      | none => (.kNullObj, .kFailure)
    getBool := fun _ => true
    getInt := fun _ => -42
    getString := fun _ => mstr "hero"
    getShort := fun _ => 1
    setValueStatus := fun _ _ => .kSuccess
    createNumeric := fun name t => (sampleNumeric name t false, .kSuccess)
    createTyped := fun name t => (sampleTyped name t false, .kSuccess)
    createEnum := fun name => (sampleEnum name [] 0 0, .kSuccess)
    addAttributeStatus := fun _ _ => .kSuccess
    removeAttributeStatus := fun _ _ => .kSuccess }

/-! ## Notions used to state the contracts of the value utilities and the commands -/

/-- The host calls before the `switch` of `getAttributeValueAsString` all succeed, so
that the string returned is made from the value of the plug. -/
def Readable (h : Host) (node : NodeObj) (attr : AttrObj) : Prop :=
  node.isNull = false ∧ attr.isNull = false ∧ h.fnDepStatus node = .kSuccess
    ∧ attr.fnAttrStatus = .kSuccess ∧ attr.nameStatus = .kSuccess
    ∧ h.findPlugStatus node attr = .kSuccess

/-- The value the plug of a bool, int or string attribute holds; `none` for the other
kinds of attribute. -/
def heldValue (h : Host) (plug : MPlug) (attr : AttrObj) : Option PlugValue :=
  if attr.apiType = .kNumericAttribute ∧ attr.numericUnitType = .kBoolean then
    some (.bool (h.getBool plug))
  else if attr.apiType = .kNumericAttribute ∧ attr.numericUnitType = .kInt then
    some (.int (h.getInt plug))
  else if attr.apiType = .kTypedAttribute ∧ attr.typedAttrType = .kString then
    some (.string (h.getString plug))
  else none

/-- An effect that changes an attribute or a value on a node. -/
def Effect.changesScene : Effect → Bool
  | .setValue _ _ => true
  | .addAttribute _ _ => true
  | .removeAttribute _ _ => true
  | _ => false

/-- The attribute objects a command handed to `addAttribute`. -/
def addedAttributes (r : CmdResult) : List AttrObj :=
  r.effects.filterMap fun e =>
    match e with
    | .addAttribute _ a => some a
    | _ => none

/-- The type names the `-add` flag accepts. -/
def acceptedTypeNames : List MString :=
  [mstr "double", mstr "float", mstr "int", mstr "long", mstr "bool", mstr "boolean",
   mstr "string", mstr "enum"]

/-- The type name the scanner reports for an attribute added with an accepted type
name: `float`, `long` and `boolean` are other names for `double`, `int` and `bool`. -/
def reportedTypeName (attrType : MString) : MString :=
  if attrType = mstr "float" then mstr "double"
  else if attrType = mstr "long" then mstr "int"
  else if attrType = mstr "boolean" then mstr "bool"
  else attrType

/-- The host creates what it is asked for: an object `create` returns with a success
status is non-null and has the type tag and the numeric or data kind of the request. -/
def CreatesAsAsked (h : Host) : Prop :=
  (∀ name t, (h.createNumeric name t).2 = .kSuccess →
    (h.createNumeric name t).1.isNull = false
      ∧ (h.createNumeric name t).1.apiType = .kNumericAttribute
      ∧ (h.createNumeric name t).1.numericUnitType = t) ∧
  (∀ name t, (h.createTyped name t).2 = .kSuccess →
    (h.createTyped name t).1.isNull = false
      ∧ (h.createTyped name t).1.apiType = .kTypedAttribute
      ∧ (h.createTyped name t).1.typedAttrType = t) ∧
  (∀ name, (h.createEnum name).2 = .kSuccess →
    (h.createEnum name).1.isNull = false ∧ (h.createEnum name).1.apiType = .kEnumAttribute)

/-- An argument database of a successful parse with exactly the flags listed set. -/
def argsWithFlags (flags : List Flag) (arguments : Flag → Nat → MString × MStatus) :
    MArgDatabase :=
  { status := .kSuccess, isFlagSet := fun f => decide (f ∈ flags), getFlagArgument := arguments }

/-! ## Qt value types -/

/-- The comparison `QString::operator<`: the code units are compared in order, the way
`strcmp` compares bytes. -/
def qstringLess (a b : QString) : Bool := decide (strcmp a b < 0)

/-- A `QVariant` of the kinds the models make or receive. -/
inductive QVariant where
  | invalid
  | string (s : QString)
  | int (i : Int)
deriving DecidableEq, Repr

/-- The conversion `QVariant::toString`. -/
def QVariant.toString : QVariant → QString
  | .invalid => []
  | .string s => s
  | .int i => decimalOfInt i

/-- A `QModelIndex`: its row, its column and whether it points to a model. -/
structure QModelIndex where
  row : Int
  column : Int
  hasModel : Bool
deriving DecidableEq, Repr

/-- The call `QModelIndex::isValid`, in Qt `(r >= 0) && (c >= 0) && (m != nullptr)`. -/
def QModelIndex.isValid (index : QModelIndex) : Bool :=
  decide (0 ≤ index.row) && decide (0 ≤ index.column) && index.hasModel

/-- The item data roles `Qt::DisplayRole`, `Qt::EditRole` and `Qt::TextAlignmentRole`. -/
def Qt.DisplayRole : Int := 0

/-- The role `Qt::EditRole`. -/
def Qt.EditRole : Int := 2

/-- The role `Qt::TextAlignmentRole`. -/
def Qt.TextAlignmentRole : Int := 7

/-- The alignment `Qt::AlignCenter`. -/
def Qt.AlignCenter : Int := 132

/-- The enumeration `Qt::SortOrder`. -/
inductive SortOrder where
  | AscendingOrder
  | DescendingOrder
deriving DecidableEq, Repr

/-- The enumeration `Qt::ItemFlag`. -/
inductive ItemFlag where
  | ItemIsSelectable
  | ItemIsEditable
  | ItemIsDragEnabled
  | ItemIsDropEnabled
  | ItemIsUserCheckable
  | ItemIsEnabled
  | ItemIsAutoTristate
  | ItemNeverHasChildren
  | ItemIsUserTristate
deriving DecidableEq, Repr

/-- A set of item flags `Qt::ItemFlags`, as the flags it contains. -/
abbrev ItemFlags := ItemFlag → Bool

/-- The empty set `Qt::NoItemFlags`. -/
def ItemFlags.none : ItemFlags := fun _ => false

/-- The union `flags | flag`. -/
def ItemFlags.insert (flags : ItemFlags) (flag : ItemFlag) : ItemFlags :=
  fun f => flags f || decide (f = flag)

/-- The flags Qt's `QAbstractTableModel::flags` gives: selectable, enabled and never with
children for a valid index, none otherwise. -/
def qtTableFlags (index : QModelIndex) : ItemFlags :=
  if index.isValid then
    fun f => decide (f = .ItemIsSelectable ∨ f = .ItemIsEnabled ∨ f = .ItemNeverHasChildren)
  else ItemFlags.none

/-- A signal a model emits. -/
inductive Signal where
  | modelAboutToBeReset
  | modelReset
  | layoutAboutToBeChanged
  | layoutChanged
  | dataChanged (topLeft bottomRight : QModelIndex)
  | valueChanged (nodeName attrName newValue : QString)
deriving DecidableEq, Repr

/-- A comparison is a strict weak ordering, the requirement `std::sort` puts on it. -/
structure StrictWeakOrder {α : Type} (comp : α → α → Bool) : Prop where
  irrefl : ∀ a, comp a a = false
  trans : ∀ a b c, comp a b = true → comp b c = true → comp a c = true
  incomp_trans : ∀ a b c, comp a b = false → comp b a = false → comp b c = false →
    comp c b = false → comp a c = false ∧ comp c a = false

/-! ## `std::sort` of the GNU C++ library

The functions of `bits/stl_algo.h` and `bits/stl_heap.h` behind `std::sort` (GCC 12), over
a container with random-access iterators (the `QList` `m_rows` of the models) given as the
list of its elements.  An iterator is its distance from `begin()`; a move is a copy, the
moved-from element being assigned before it is read again; every loop has a fuel argument,
started above the number of steps it can take before it ends or leaves the container. -/

/-- How a run of `std::sort` ends without a result: an access outside `[begin, end)` of the
container, which is undefined behaviour, or a loop cut off by its fuel. -/
inductive SortFault where
  | outOfBounds
  | outOfFuel
deriving DecidableEq, Repr

/-- The read `*(begin + i)` of a container with the elements `arr`. -/
def derefAt {α : Type} (arr : List α) (i : Int) : Except SortFault α :=
  if i < 0 then .error .outOfBounds
  else
    match arr[i.toNat]? with
    | some x => .ok x
    | none => .error .outOfBounds

/-- The assignment `*(begin + i) = x`. -/
def assignAt {α : Type} (arr : List α) (i : Int) (x : α) : Except SortFault (List α) :=
  if 0 ≤ i ∧ i < arr.length then .ok (arr.set i.toNat x) else .error .outOfBounds

/-- The function `std::iter_swap`. -/
def std.iter_swap {α : Type} (arr : List α) (a b : Int) : Except SortFault (List α) := do
  let x ← derefAt arr a
  let y ← derefAt arr b
  let arr ← assignAt arr a y
  assignAt arr b x

/-- The halving that finds the highest set bit, for at most `fuel` steps. -/
def std.__lg.loop : Nat → Nat → Nat
  | 0, _ => 0
  | fuel + 1, n => if n ≥ 2 then std.__lg.loop fuel (n / 2) + 1 else 0

/-- The function `std::__lg`: the position of the highest set bit of a positive number. -/
def std.__lg (n : Int) : Nat := std.__lg.loop n.toNat n.toNat

/-- The function `std::__move_median_to_first` of `bits/stl_algo.h`. -/
def std.__move_median_to_first {α : Type} (comp : α → α → Bool) (arr : List α)
    (result a b c : Int) : Except SortFault (List α) := do
  let va ← derefAt arr a
  let vb ← derefAt arr b
  if comp va vb then
    let vc ← derefAt arr c
    if comp vb vc then std.iter_swap arr result b
    else if comp va vc then std.iter_swap arr result c
    else std.iter_swap arr result a
  else
    let vc ← derefAt arr c
    if comp va vc then std.iter_swap arr result a
    else if comp vb vc then std.iter_swap arr result c
    else std.iter_swap arr result b

/-- The loop `while (__comp(__first, __pivot)) ++__first;` of `std::__unguarded_partition`;
no bound is checked, the scan ends only at a row the comparison does not put before the
pivot. -/
def std.__unguarded_partition.up {α : Type} (comp : α → α → Bool) (arr : List α) (pivot : Int) :
    Nat → Int → Except SortFault Int
  | 0, _ => .error .outOfFuel
  | fuel + 1, first => do
    let x ← derefAt arr first
    let p ← derefAt arr pivot
    if comp x p then std.__unguarded_partition.up comp arr pivot fuel (first + 1)
    else .ok first

/-- The loop `while (__comp(__pivot, __last)) --__last;` of `std::__unguarded_partition`. -/
def std.__unguarded_partition.down {α : Type} (comp : α → α → Bool) (arr : List α) (pivot : Int) :
    Nat → Int → Except SortFault Int
  | 0, _ => .error .outOfFuel
  | fuel + 1, last => do
    let p ← derefAt arr pivot
    let x ← derefAt arr last
    if comp p x then std.__unguarded_partition.down comp arr pivot fuel (last - 1)
    else .ok last

/-- The function `std::__unguarded_partition`: the array afterwards and the cut. -/
def std.__unguarded_partition {α : Type} (comp : α → α → Bool) (pivot : Int) :
    Nat → List α → Int → Int → Except SortFault (List α × Int)
  | 0, _, _, _ => .error .outOfFuel
  | fuel + 1, arr, first, last => do
    let first ← std.__unguarded_partition.up comp arr pivot (arr.length + 1) first
    let last ← std.__unguarded_partition.down comp arr pivot (arr.length + 1) (last - 1)
    if ¬ (first < last) then .ok (arr, first)
    else
      let arr ← std.iter_swap arr first last
      std.__unguarded_partition comp pivot fuel arr (first + 1) last

/-- The function `std::__unguarded_partition_pivot`. -/
def std.__unguarded_partition_pivot {α : Type} (comp : α → α → Bool) (arr : List α)
    (first last : Int) : Except SortFault (List α × Int) := do
  let mid := first + (last - first).tdiv 2
  let arr ← std.__move_median_to_first comp arr first (first + 1) mid (last - 1)
  std.__unguarded_partition comp first (arr.length + 1) arr (first + 1) last

/-- The function `std::__push_heap` of `bits/stl_heap.h`. -/
def std.__push_heap {α : Type} (comp : α → α → Bool) (first topIndex : Int) (value : α) :
    Nat → List α → Int → Except SortFault (List α)
  | 0, _, _ => .error .outOfFuel
  | fuel + 1, arr, holeIndex => do
    let parent := (holeIndex - 1).tdiv 2
    if holeIndex > topIndex then
      let p ← derefAt arr (first + parent)
      if comp p value then
        let arr ← assignAt arr (first + holeIndex) p
        std.__push_heap comp first topIndex value fuel arr parent
      else assignAt arr (first + holeIndex) value
    else assignAt arr (first + holeIndex) value

/-- The loop `while (__secondChild < (__len - 1) / 2)` of `std::__adjust_heap`: the array,
the hole and the second child afterwards. -/
def std.__adjust_heap.loop {α : Type} (comp : α → α → Bool) (first len : Int) :
    Nat → List α → Int → Int → Except SortFault (List α × Int × Int)
  | 0, _, _, _ => .error .outOfFuel
  | fuel + 1, arr, holeIndex, secondChild =>
    if secondChild < (len - 1).tdiv 2 then do
      let secondChild := 2 * (secondChild + 1)
      let x ← derefAt arr (first + secondChild)
      let y ← derefAt arr (first + (secondChild - 1))
      let secondChild := if comp x y then secondChild - 1 else secondChild
      let z ← derefAt arr (first + secondChild)
      let arr ← assignAt arr (first + holeIndex) z
      std.__adjust_heap.loop comp first len fuel arr secondChild secondChild
    else .ok (arr, holeIndex, secondChild)

/-- The function `std::__adjust_heap`. -/
def std.__adjust_heap {α : Type} (comp : α → α → Bool) (arr : List α) (first holeIndex len : Int)
    (value : α) : Except SortFault (List α) := do
  let topIndex := holeIndex
  let (arr, holeIndex, secondChild) ←
    std.__adjust_heap.loop comp first len (arr.length + 1) arr holeIndex holeIndex
  if len % 2 = 0 ∧ secondChild = (len - 2).tdiv 2 then
    let secondChild := 2 * (secondChild + 1)
    let z ← derefAt arr (first + (secondChild - 1))
    let arr ← assignAt arr (first + holeIndex) z
    std.__push_heap comp first topIndex value (arr.length + 1) arr (secondChild - 1)
  else
    std.__push_heap comp first topIndex value (arr.length + 1) arr holeIndex

/-- The function `std::__pop_heap`. -/
def std.__pop_heap {α : Type} (comp : α → α → Bool) (arr : List α) (first last result : Int) :
    Except SortFault (List α) := do
  let value ← derefAt arr result
  let top ← derefAt arr first
  let arr ← assignAt arr result top
  std.__adjust_heap comp arr first 0 (last - first) value

/-- The loop `while (true)` of `std::__make_heap`. -/
def std.__make_heap.loop {α : Type} (comp : α → α → Bool) (first len : Int) :
    Nat → List α → Int → Except SortFault (List α)
  | 0, _, _ => .error .outOfFuel
  | fuel + 1, arr, parent => do
    let value ← derefAt arr (first + parent)
    let arr ← std.__adjust_heap comp arr first parent len value
    if parent = 0 then .ok arr
    else std.__make_heap.loop comp first len fuel arr (parent - 1)

/-- The function `std::__make_heap`. -/
def std.__make_heap {α : Type} (comp : α → α → Bool) (arr : List α) (first last : Int) :
    Except SortFault (List α) :=
  if last - first < 2 then .ok arr
  else
    let len := last - first
    std.__make_heap.loop comp first len (arr.length + 1) arr ((len - 2).tdiv 2)

/-- The function `std::__sort_heap`. -/
def std.__sort_heap {α : Type} (comp : α → α → Bool) (first : Int) :
    Nat → List α → Int → Except SortFault (List α)
  | 0, _, _ => .error .outOfFuel
  | fuel + 1, arr, last =>
    if last - first > 1 then do
      let arr ← std.__pop_heap comp arr first (last - 1) (last - 1)
      std.__sort_heap comp first fuel arr (last - 1)
    else .ok arr

/-- The loop `for (__i = __middle; __i < __last; ++__i)` of `std::__heap_select`. -/
def std.__heap_select.loop {α : Type} (comp : α → α → Bool) (first middle last : Int) :
    Nat → List α → Int → Except SortFault (List α)
  | 0, _, _ => .error .outOfFuel
  | fuel + 1, arr, i =>
    if i < last then do
      let x ← derefAt arr i
      let top ← derefAt arr first
      let arr ← if comp x top then std.__pop_heap comp arr first middle i else .ok arr
      std.__heap_select.loop comp first middle last fuel arr (i + 1)
    else .ok arr

/-- The function `std::__heap_select`. -/
def std.__heap_select {α : Type} (comp : α → α → Bool) (arr : List α) (first middle last : Int) :
    Except SortFault (List α) := do
  let arr ← std.__make_heap comp arr first middle
  std.__heap_select.loop comp first middle last (arr.length + 1) arr middle

/-- The function `std::__partial_sort`. -/
def std.__partial_sort {α : Type} (comp : α → α → Bool) (arr : List α) (first middle last : Int) :
    Except SortFault (List α) := do
  let arr ← std.__heap_select comp arr first middle last
  std.__sort_heap comp first (arr.length + 1) arr middle

/-- The loop `while (__comp(__val, __next))` of `std::__unguarded_linear_insert` and the
assignment after it; no bound is checked. -/
def std.__unguarded_linear_insert.loop {α : Type} (comp : α → α → Bool) (val : α) :
    Nat → List α → Int → Int → Except SortFault (List α)
  | 0, _, _, _ => .error .outOfFuel
  | fuel + 1, arr, last, next => do
    let x ← derefAt arr next
    if comp val x then
      let arr ← assignAt arr last x
      std.__unguarded_linear_insert.loop comp val fuel arr next (next - 1)
    else assignAt arr last val

/-- The function `std::__unguarded_linear_insert`. -/
def std.__unguarded_linear_insert {α : Type} (comp : α → α → Bool) (arr : List α) (last : Int) :
    Except SortFault (List α) := do
  let val ← derefAt arr last
  std.__unguarded_linear_insert.loop comp val (arr.length + 1) arr last (last - 1)

/-- The function `std::move_backward(first, last, result)`, one element at a time from
the back. -/
def std.move_backward {α : Type} (first : Int) :
    Nat → List α → Int → Int → Except SortFault (List α)
  | 0, _, _, _ => .error .outOfFuel
  | fuel + 1, arr, last, result =>
    if first ≠ last then do
      let x ← derefAt arr (last - 1)
      let arr ← assignAt arr (result - 1) x
      std.move_backward first fuel arr (last - 1) (result - 1)
    else .ok arr

/-- The loop `for (__i = __first + 1; __i != __last; ++__i)` of `std::__insertion_sort`. -/
def std.__insertion_sort.loop {α : Type} (comp : α → α → Bool) (first last : Int) :
    Nat → List α → Int → Except SortFault (List α)
  | 0, _, _ => .error .outOfFuel
  | fuel + 1, arr, i =>
    if i ≠ last then do
      let x ← derefAt arr i
      let f ← derefAt arr first
      let arr ←
        if comp x f then do
          let arr ← std.move_backward first (arr.length + 1) arr i (i + 1)
          assignAt arr first x
        else std.__unguarded_linear_insert comp arr i
      std.__insertion_sort.loop comp first last fuel arr (i + 1)
    else .ok arr

/-- The function `std::__insertion_sort`. -/
def std.__insertion_sort {α : Type} (comp : α → α → Bool) (arr : List α) (first last : Int) :
    Except SortFault (List α) :=
  if first = last then .ok arr
  else std.__insertion_sort.loop comp first last (arr.length + 1) arr (first + 1)

/-- The function `std::__unguarded_insertion_sort`, a loop over `__i`. -/
def std.__unguarded_insertion_sort {α : Type} (comp : α → α → Bool) (last : Int) :
    Nat → List α → Int → Except SortFault (List α)
  | 0, _, _ => .error .outOfFuel
  | fuel + 1, arr, i =>
    if i ≠ last then do
      let arr ← std.__unguarded_linear_insert comp arr i
      std.__unguarded_insertion_sort comp last fuel arr (i + 1)
    else .ok arr

/-- The constant `_S_threshold`. -/
def std._S_threshold : Int := 16

/-- The function `std::__final_insertion_sort`. -/
def std.__final_insertion_sort {α : Type} (comp : α → α → Bool) (arr : List α)
    (first last : Int) : Except SortFault (List α) :=
  if last - first > std._S_threshold then do
    let arr ← std.__insertion_sort comp arr first (first + std._S_threshold)
    std.__unguarded_insertion_sort comp last (arr.length + 1) arr (first + std._S_threshold)
  else std.__insertion_sort comp arr first last

/-- The function `std::__introsort_loop`; the recursive call and the next round of the
loop both run with the decremented depth limit. -/
def std.__introsort_loop {α : Type} (comp : α → α → Bool) :
    Nat → List α → Int → Int → Except SortFault (List α)
  | 0, arr, first, last =>
    if last - first > std._S_threshold then std.__partial_sort comp arr first last last
    else .ok arr
  | depth_limit + 1, arr, first, last =>
    if last - first > std._S_threshold then do
      let (arr, cut) ← std.__unguarded_partition_pivot comp arr first last
      let arr ← std.__introsort_loop comp depth_limit arr cut last
      std.__introsort_loop comp depth_limit arr first cut
    else .ok arr

/-- The function `std::__sort`. -/
def std.__sort {α : Type} (comp : α → α → Bool) (arr : List α) (first last : Int) :
    Except SortFault (List α) :=
  if first ≠ last then do
    let arr ← std.__introsort_loop comp (std.__lg (last - first) * 2) arr first last
    std.__final_insertion_sort comp arr first last
  else .ok arr

/-- The call `std::sort(v.begin(), v.end(), comp)` on a container `v`. -/
def std.sort {α : Type} (comp : α → α → Bool) (v : List α) : Except SortFault (List α) :=
  std.__sort comp v 0 v.length

/-- The contract of `std::sort`: given a strict weak ordering, the call returns, and the
result is a permutation of the input in which no later element compares less than an
earlier one.  Nothing is promised for another comparison. -/
def StdSortContract {α : Type}
    (stdSort : (α → α → Bool) → List α → Except SortFault (List α)) : Prop :=
  ∀ comp l, StrictWeakOrder comp →
    ∃ out, stdSort comp l = .ok out ∧ out.Perm l ∧ out.Pairwise (fun a b => comp b a = false)

/-! ## ExtraAttrModel -/

/-- The record `ExtraAttrModel::AttributeRow`; `info` is the record the pointer shares. -/
structure AttributeRow where
  name : QString
  typeName : QString
  usageCount : Int
  isArray : Bool
  info : AttributeInfo
deriving DecidableEq, Repr

/-- The member of `ExtraAttrModel`. -/
structure ExtraAttrModel where
  m_rows : List AttributeRow
deriving DecidableEq, Repr

/-- The column `ExtraAttrModel::COL_ATTR_NAME`. -/
def ExtraAttrModel.COL_ATTR_NAME : Int := 0

/-- The column `ExtraAttrModel::COL_TYPE`. -/
def ExtraAttrModel.COL_TYPE : Int := 1

/-- The column `ExtraAttrModel::COL_USAGE_COUNT`. -/
def ExtraAttrModel.COL_USAGE_COUNT : Int := 2

/-- The column `ExtraAttrModel::COL_IS_ARRAY`. -/
def ExtraAttrModel.COL_IS_ARRAY : Int := 3

/-- The method `ExtraAttrModel::rowCount`. -/
def ExtraAttrModel.rowCount (m : ExtraAttrModel) (parent : QModelIndex) : Int :=
  if parent.isValid then 0 else m.m_rows.length

/-- The method `ExtraAttrModel::data`. -/
def ExtraAttrModel.data (m : ExtraAttrModel) (index : QModelIndex) (role : Int) : QVariant :=
  if index.isValid = false ∨ index.row ≥ m.m_rows.length then .invalid
  else
    match m.m_rows[index.row.toNat]? with
    | none => .invalid
    | some row =>
      if role = Qt.DisplayRole then
        if index.column = ExtraAttrModel.COL_ATTR_NAME then .string row.name
        else if index.column = ExtraAttrModel.COL_TYPE then .string row.typeName
        else if index.column = ExtraAttrModel.COL_USAGE_COUNT then .int row.usageCount
        else if index.column = ExtraAttrModel.COL_IS_ARRAY then
          .string (if row.isArray then mstr "Yes" else mstr "No")
        else .invalid
      else if role = Qt.TextAlignmentRole then
        if index.column = ExtraAttrModel.COL_USAGE_COUNT then .int Qt.AlignCenter else .invalid
      else .invalid

/-- The row `loadFromScanner` makes of one entry of the attribute-info map. -/
def attributeRowOf (fromUtf8 : MString → QString) (pair : MString × AttributeInfo) :
    AttributeRow :=
  { name := fromUtf8 pair.1, typeName := fromUtf8 pair.2.typeName,
    usageCount := pair.2.usageCount, isArray := pair.2.isArray, info := pair.2 }

/-- The method `ExtraAttrModel::loadFromScanner`, given Qt's `QString::fromUtf8`: the
model afterwards and the signals of the reset. -/
def ExtraAttrModel.loadFromScanner (fromUtf8 : MString → QString) (_m : ExtraAttrModel)
    (scanner : ExtraAttrScanner) : ExtraAttrModel × List Signal :=
  let cleared : List AttributeRow := []
  (⟨scanner.m_attributeInfoMap.entries.foldl
      (fun rows pair => rows ++ [attributeRowOf fromUtf8 pair]) cleared⟩,
    [.modelAboutToBeReset, .modelReset])

/-- The comparison `ExtraAttrModel::sort` hands to `std::sort`. -/
def ExtraAttrModel.sortLess (column : Int) (order : SortOrder) (a b : AttributeRow) : Bool :=
  let result :=
    if column = ExtraAttrModel.COL_ATTR_NAME then qstringLess a.name b.name
    else if column = ExtraAttrModel.COL_TYPE then qstringLess a.typeName b.typeName
    else if column = ExtraAttrModel.COL_USAGE_COUNT then decide (a.usageCount < b.usageCount)
    else if column = ExtraAttrModel.COL_IS_ARRAY then (!a.isArray && b.isArray)
    else qstringLess a.name b.name
  if order = .AscendingOrder then result else !result

/-- The method `ExtraAttrModel::sort`, given `std::sort`: the model afterwards and the
signals emitted, or the fault of `std::sort`. -/
def ExtraAttrModel.sort (stdSort : (AttributeRow → AttributeRow → Bool) → List AttributeRow →
    Except SortFault (List AttributeRow)) (m : ExtraAttrModel) (column : Int) (order : SortOrder) :
    Except SortFault (ExtraAttrModel × List Signal) :=
  if m.m_rows.isEmpty then .ok (m, [])
  else do
    let rows ← stdSort (ExtraAttrModel.sortLess column order) m.m_rows
    .ok (⟨rows⟩, [.layoutAboutToBeChanged, .layoutChanged])

/-! ## NodeAttributeModel -/

/-- The record `NodeAttributeModel::NodeRow`. -/
structure NodeRow where
  nodeName : QString
  nodeType : QString
  value : QString
deriving DecidableEq, Repr

/-- The members of `NodeAttributeModel`. -/
structure NodeAttributeModel where
  m_currentAttrName : QString
  m_rows : List NodeRow
deriving DecidableEq, Repr

/-- The column `NodeAttributeModel::COL_NODE_NAME`. -/
def NodeAttributeModel.COL_NODE_NAME : Int := 0

/-- The column `NodeAttributeModel::COL_NODE_TYPE`. -/
def NodeAttributeModel.COL_NODE_TYPE : Int := 1

/-- The column `NodeAttributeModel::COL_VALUE`. -/
def NodeAttributeModel.COL_VALUE : Int := 2

/-- The method `NodeAttributeModel::rowCount`. -/
def NodeAttributeModel.rowCount (m : NodeAttributeModel) (parent : QModelIndex) : Int :=
  if parent.isValid then 0 else m.m_rows.length

/-- The method `NodeAttributeModel::data`. -/
def NodeAttributeModel.data (m : NodeAttributeModel) (index : QModelIndex) (role : Int) :
    QVariant :=
  if index.isValid = false ∨ index.row ≥ m.m_rows.length then .invalid
  else
    match m.m_rows[index.row.toNat]? with
    | none => .invalid
    | some row =>
      if role = Qt.DisplayRole ∨ role = Qt.EditRole then
        if index.column = NodeAttributeModel.COL_NODE_NAME then .string row.nodeName
        else if index.column = NodeAttributeModel.COL_NODE_TYPE then .string row.nodeType
        else if index.column = NodeAttributeModel.COL_VALUE then .string row.value
        else .invalid
      else .invalid

/-- The method `NodeAttributeModel::flags`, given the flags of the base class
`QAbstractTableModel::flags`. -/
def NodeAttributeModel.flags (base : QModelIndex → ItemFlags) (index : QModelIndex) :
    ItemFlags :=
  if index.isValid = false then ItemFlags.none
  else if index.column = NodeAttributeModel.COL_VALUE then (base index).insert .ItemIsEditable
  else base index

/-- The method `NodeAttributeModel::setData`: the flag returned, the model afterwards
and the signals emitted. -/
def NodeAttributeModel.setData (m : NodeAttributeModel) (index : QModelIndex) (value : QVariant)
    (role : Int) : Bool × NodeAttributeModel × List Signal :=
  if index.isValid = false ∨ index.row ≥ m.m_rows.length ∨ role ≠ Qt.EditRole then (false, m, [])
  else if index.column ≠ NodeAttributeModel.COL_VALUE then (false, m, [])
  else
    match m.m_rows[index.row.toNat]? with
    | none => (false, m, [])
    | some row =>
      let rows := m.m_rows.set index.row.toNat { row with value := value.toString }
      (true, { m with m_rows := rows },
        [.valueChanged row.nodeName m.m_currentAttrName value.toString,
         .dataChanged index index])

/-- The row `setNodeValues` makes of one node value. -/
def nodeRowOf (fromUtf8 : MString → QString) (nodeValue : NodeAttributeValue) : NodeRow :=
  { nodeName := fromUtf8 nodeValue.nodeName, nodeType := fromUtf8 nodeValue.nodeType,
    value := fromUtf8 nodeValue.valueStr }

/-- The method `NodeAttributeModel::setNodeValues`, given Qt's `QString::fromUtf8`. -/
def NodeAttributeModel.setNodeValues (fromUtf8 : MString → QString) (_m : NodeAttributeModel)
    (attrName : QString) (nodeValues : List NodeAttributeValue) :
    NodeAttributeModel × List Signal :=
  let cleared : List NodeRow := []
  (⟨attrName, nodeValues.foldl (fun rows nodeValue => rows ++ [nodeRowOf fromUtf8 nodeValue])
      cleared⟩,
    [.modelAboutToBeReset, .modelReset])

/-- The comparison `NodeAttributeModel::sort` hands to `std::sort`. -/
def NodeAttributeModel.sortLess (column : Int) (order : SortOrder) (a b : NodeRow) : Bool :=
  let result :=
    if column = NodeAttributeModel.COL_NODE_NAME then qstringLess a.nodeName b.nodeName
    else if column = NodeAttributeModel.COL_NODE_TYPE then qstringLess a.nodeType b.nodeType
    else if column = NodeAttributeModel.COL_VALUE then qstringLess a.value b.value
    else qstringLess a.nodeName b.nodeName
  if order = .AscendingOrder then result else !result

/-- The method `NodeAttributeModel::sort`, given `std::sort`: the model afterwards and
the signals emitted, or the fault of `std::sort`. -/
def NodeAttributeModel.sort (stdSort : (NodeRow → NodeRow → Bool) → List NodeRow →
    Except SortFault (List NodeRow)) (m : NodeAttributeModel) (column : Int) (order : SortOrder) :
    Except SortFault (NodeAttributeModel × List Signal) :=
  if m.m_rows.isEmpty then .ok (m, [])
  else do
    let rows ← stdSort (NodeAttributeModel.sortLess column order) m.m_rows
    .ok ({ m with m_rows := rows }, [.layoutAboutToBeChanged, .layoutChanged])

/-! ## Notions used to state the contracts of the statistics and the tables -/

/-- The keys of a map, in iteration order. -/
def StdMap.keys {V : Type} (m : StdMap V) : List MString := m.entries.map Prod.fst

/-- The entries of a map are in strictly ascending `strcmp` order of their keys, the
order in which a `std::map` under `MStringLess` iterates. -/
def StdMap.Ordered {V : Type} (m : StdMap V) : Prop :=
  m.entries.Pairwise fun a b => strcmp a.1 b.1 < 0

/-- The extra-attribute names of the scene: the non-empty names carried by the dynamic
attributes of the visited nodes, one per (node, attribute) pair. -/
def extraAttributeNames (h : Host) : List MString :=
  (dynamicPairs h).filterMap fun p =>
    if p.2.nameStatus = .kSuccess ∧ p.2.name ≠ [] then some p.2.name else none

/-! ## Qt's UTF-8 conversions -/

/-- The byte-for-byte reading of ASCII text, which `QString::fromUtf8` gives on it. -/
def asciiFromUtf8 (s : MString) : QString := s

/-- A node table with two rows, showing the attribute `mode`. -/
def sampleNodeModel : NodeAttributeModel :=
  { m_currentAttrName := mstr "mode",
    m_rows := [⟨mstr "pCube1", mstr "transform", mstr "on"⟩,
               ⟨mstr "pSphere1", mstr "transform", mstr "off"⟩] }

/-- The index of row 1, Value column, of a model. -/
def sampleValueIndex : QModelIndex := ⟨1, 2, true⟩

/-- A sort that meets the contract of `std::sort`: insertion sort by "not greater". -/
def referenceSort {α : Type} (comp : α → α → Bool) (l : List α) : Except SortFault (List α) :=
  .ok (l.insertionSort fun a b => comp b a = false)

/-- An attribute table with two rows of equal usage count. -/
def sampleAttrModel : ExtraAttrModel :=
  { m_rows :=
      [⟨mstr "mode", mstr "enum", 1, false, ⟨mstr "mode", mstr "enum", .kEnumAttribute, 1, false⟩⟩,
       ⟨mstr "tag", mstr "string", 1, false,
         ⟨mstr "tag", mstr "string", .kTypedAttribute, 1, false⟩⟩] }

/-- An attribute table with seventeen rows, named `a` to `q`, each of usage count 1. -/
def equalUsageModel : ExtraAttrModel :=
  { m_rows := (List.range 17).map fun i =>
      ⟨[97 + i], mstr "string", 1, false, ⟨[97 + i], mstr "string", .kTypedAttribute, 1, false⟩⟩ }

/-- A node table with seventeen rows, the nodes `a` to `q`, each of type `transform` and
value `on`. -/
def equalTypeNodeModel : NodeAttributeModel :=
  { m_currentAttrName := mstr "mode",
    m_rows := (List.range 17).map fun i => ⟨[97 + i], mstr "transform", mstr "on"⟩ }

/-! # Theorems -/

/-! ## `strcmp` and the map -/

theorem strcmp_self (a : MString) : strcmp a a = 0 := by
  induction a with
  | nil => rfl
  | cons x xs ih => simp [strcmp, ih]

theorem eq_of_strcmp_not_lt : ∀ (a b : MString), ¬ strcmp a b < 0 → ¬ strcmp b a < 0 → a = b
  | [], [] => fun _ _ => rfl
  | [], _ :: _ => fun h _ => absurd (by simp [strcmp]) h
  | _ :: _, [] => fun _ h => absurd (by simp [strcmp]) h
  | x :: xs, y :: ys => by
    intro h1 h2
    simp only [strcmp] at h1 h2
    by_cases hxy : x < y
    · simp [hxy] at h1
    · by_cases hyx : y < x
      · simp [hyx] at h2
      · have hx : x = y := by omega
        simp only [hxy, hyx, if_false] at h1 h2
        rw [hx, eq_of_strcmp_not_lt xs ys h1 h2]

theorem keyEquiv_iff (a b : MString) :
    (!MStringLess a b && !MStringLess b a) = true ↔ a = b := by
  constructor
  · intro h
    simp only [MStringLess, Bool.and_eq_true, Bool.not_eq_true', decide_eq_false_iff_not] at h
    exact eq_of_strcmp_not_lt a b h.1 h.2
  · rintro rfl
    simp [MStringLess, strcmp_self]

theorem MStringLess_irrefl (a : MString) : MStringLess a a = false := by
  simp [MStringLess, strcmp_self]

theorem findEntry_cons {V : Type} (k k' : MString) (v : V) (rest : List (MString × V)) :
    findEntry k ((k', v) :: rest) = if k' = k then some v else findEntry k rest := by
  by_cases hk : k' = k
  · subst hk
    simp [findEntry, MStringLess_irrefl]
  · have : (!MStringLess k' k && !MStringLess k k') = false := by
      rw [Bool.eq_false_iff]; exact fun h => hk ((keyEquiv_iff k' k).1 h)
    simp [findEntry, this, hk]

theorem findEntry_nil {V : Type} (k : MString) :
    findEntry k ([] : List (MString × V)) = none := rfl

theorem findEntry_assign_self {V : Type} (k : MString) (v : V) (l : List (MString × V)) :
    findEntry k (assignEntry k v l) = some v := by
  induction l with
  | nil => simp [assignEntry, findEntry_cons]
  | cons e rest ih =>
    obtain ⟨k', v'⟩ := e
    simp only [assignEntry]
    by_cases h1 : MStringLess k k' = true
    · simp [h1, findEntry_cons]
    · by_cases h2 : MStringLess k' k = true
      · have hne : k' ≠ k := by
          rintro rfl
          rw [MStringLess_irrefl] at h2
          exact Bool.false_ne_true h2
        simp [h1, h2, findEntry_cons, hne, ih]
      · have hk : k' = k := (keyEquiv_iff k' k).1 (by simp [h1, h2])
        subst hk
        simp [MStringLess_irrefl, findEntry_cons]

theorem findEntry_assign_other {V : Type} (k k0 : MString) (v : V) (l : List (MString × V))
    (hne : k0 ≠ k) : findEntry k0 (assignEntry k v l) = findEntry k0 l := by
  induction l with
  | nil => simp [assignEntry, findEntry_cons, findEntry_nil, hne.symm]
  | cons e rest ih =>
    obtain ⟨k', v'⟩ := e
    simp only [assignEntry]
    by_cases h1 : MStringLess k k' = true
    · simp [h1, findEntry_cons, hne.symm]
    · by_cases h2 : MStringLess k' k = true
      · simp [h1, h2, findEntry_cons, ih]
      · have hk : k' = k := (keyEquiv_iff k' k).1 (by simp [h1, h2])
        have hne' : ¬ k' = k0 := by rw [hk]; exact hne.symm
        simp [h1, h2, findEntry_cons, hne']

theorem StdMap.find_assign_self {V : Type} (m : StdMap V) (k : MString) (v : V) :
    (m.assign k v).find k = some v := findEntry_assign_self k v m.entries

theorem StdMap.find_assign_other {V : Type} (m : StdMap V) (k k0 : MString) (v : V)
    (hne : k0 ≠ k) : (m.assign k v).find k0 = m.find k0 :=
  findEntry_assign_other k k0 v m.entries hne

theorem StdMap.find_empty {V : Type} (k : MString) : (StdMap.empty : StdMap V).find k = none :=
  rfl

/-! ## The scan -/

theorem toInt32_of_range (x : Int) (h0 : 0 ≤ x) (h1 : x ≤ 2147483647) : toInt32 x = x := by
  unfold toInt32; omega

theorem nodesCarrying_append (l1 l2 : List (NodeObj × AttrObj)) (n : MString) :
    nodesCarrying (l1 ++ l2) n = nodesCarrying l1 n ++ nodesCarrying l2 n := by
  simp [nodesCarrying]

theorem nodesCarrying_single (p : NodeObj × AttrObj) (n : MString) :
    nodesCarrying [p] n = if p.2.carries n = true then [p.1] else [] := by
  by_cases hc : p.2.carries n = true <;> simp [nodesCarrying, hc]

theorem Tracks_clearCache (s : ExtraAttrScanner) : Tracks s.clearCache [] := by
  intro name
  left
  exact ⟨Or.inr rfl, rfl, rfl⟩

theorem Tracks_skip (s : ExtraAttrScanner) (L : List (NodeObj × AttrObj)) (p : NodeObj × AttrObj)
    (ht : Tracks s L) (hp : p.2.nameStatus ≠ .kSuccess ∨ p.2.name = []) :
    Tracks s (L ++ [p]) := by
  intro name
  by_cases hn : name = []
  · rcases ht name with h1 | h1
    · exact Or.inl ⟨Or.inl hn, h1.2⟩
    · exact absurd hn h1.1
  · have hc : p.2.carries name = false := by
      simp only [AttrObj.carries, decide_eq_false_iff_not, not_and]
      intro hs hname
      rcases hp with hp | hp
      · exact hp hs
      · exact hn (hname ▸ hp)
    have hl : nodesCarrying (L ++ [p]) name = nodesCarrying L name := by
      rw [nodesCarrying_append, nodesCarrying_single]; simp [hc]
    rw [hl]
    exact ht name

theorem Tracks_record (s : ExtraAttrScanner) (L : List (NodeObj × AttrObj)) (n : NodeObj)
    (a : AttrObj) (ht : Tracks s L) (hs : a.nameStatus = .kSuccess) (hne : a.name ≠ []) :
    Tracks (recordAttribute s n a a.name) (L ++ [(n, a)]) := by
  intro name
  by_cases hname : name = a.name
  · subst hname
    have hc : a.carries a.name = true := by simp [AttrObj.carries, hs]
    have hl : nodesCarrying (L ++ [(n, a)]) a.name = nodesCarrying L a.name ++ [n] := by
      rw [nodesCarrying_append, nodesCarrying_single]; simp [hc]
    right
    rw [hl]
    refine ⟨hne, by simp, ?_⟩
    rcases ht a.name with ⟨hempty, hinfo, hnodes⟩ | ⟨_, _, hnodes, info, hinfo, hcount⟩
    · have hnil : nodesCarrying L a.name = [] := hempty.resolve_left hne
      simp only [recordAttribute, hinfo, hnil, List.nil_append]
      refine ⟨StdMap.find_assign_self _ _ _, _, StdMap.find_assign_self _ _ _, ?_⟩
      intro _; simp
    · simp only [recordAttribute, hinfo, hnodes]
      refine ⟨StdMap.find_assign_self _ _ _, _, StdMap.find_assign_self _ _ _, ?_⟩
      intro hlen
      simp only [List.length_append, List.length_singleton, Nat.cast_add, Nat.cast_one] at hlen ⊢
      have hlen' : (nodesCarrying L a.name).length ≤ 2147483647 := by omega
      rw [hcount hlen']
      exact toInt32_of_range _ (by omega) (by omega)
  · have hc : a.carries name = false := by
      simp only [AttrObj.carries, decide_eq_false_iff_not, not_and]
      intro _ h; exact hname h.symm
    have hl : nodesCarrying (L ++ [(n, a)]) name = nodesCarrying L name := by
      rw [nodesCarrying_append, nodesCarrying_single]; simp [hc]
    rw [hl]
    have hinfo : (recordAttribute s n a a.name).m_attributeInfoMap.find name
        = s.m_attributeInfoMap.find name := by
      unfold recordAttribute
      cases s.m_attributeInfoMap.find a.name <;> exact StdMap.find_assign_other _ _ _ _ hname
    have hnodes : (recordAttribute s n a a.name).m_attrToNodesMap.find name
        = s.m_attrToNodesMap.find name := by
      unfold recordAttribute
      cases s.m_attributeInfoMap.find a.name with
      | none =>
        simp only
        rw [StdMap.find_assign_other _ _ _ _ hname, StdMap.find_assign_other _ _ _ _ hname]
      | some info =>
        simp only
        cases s.m_attrToNodesMap.find a.name <;> exact StdMap.find_assign_other _ _ _ _ hname
    rw [hinfo, hnodes]
    exact ht name

theorem isExtraAttribute_eq_dynamic (a : AttrObj) (n : NodeObj) :
    isExtraAttribute a n = a.dynamic := by
  unfold isExtraAttribute AttrObj.dynamic
  cases hn : a.isNull <;> cases hd : a.isDynamic <;>
    by_cases h1 : a.fnAttrStatus = .kSuccess <;>
    by_cases h2 : a.isDynamicStatus = .kSuccess <;> simp [h1, h2]

theorem Tracks_scanAttribute (h : Host) (n : NodeObj) (s : ExtraAttrScanner)
    (L : List (NodeObj × AttrObj)) (i : Nat) (ht : Tracks s L) :
    Tracks (scanAttribute h n s i) (L ++ pairsAt h n i) := by
  unfold scanAttribute pairsAt
  simp only [isExtraAttribute_eq_dynamic]
  by_cases h1 : (h.attributeAt n i).2 ≠ .kSuccess ∨ (h.attributeAt n i).1.isNull = true
  · have h1' : ¬ ((h.attributeAt n i).2 = .kSuccess ∧ (h.attributeAt n i).1.isNull = false
        ∧ (h.attributeAt n i).1.dynamic = true) := by
      rintro ⟨ha, hb, _⟩
      rcases h1 with h1 | h1
      · exact h1 ha
      · rw [hb] at h1; exact Bool.false_ne_true h1
    rw [if_pos h1, if_neg h1', List.append_nil]
    exact ht
  · rw [if_neg h1]
    have hst : (h.attributeAt n i).2 = .kSuccess := by
      by_contra hc; exact h1 (Or.inl hc)
    have hnn : (h.attributeAt n i).1.isNull = false := by
      cases hb : (h.attributeAt n i).1.isNull
      · rfl
      · exact absurd (Or.inr hb) h1
    by_cases h2 : (h.attributeAt n i).1.dynamic = false
    · rw [if_pos h2, if_neg (by simp [h2]), List.append_nil]
      exact ht
    · have hdyn : (h.attributeAt n i).1.dynamic = true := by
        cases hb : (h.attributeAt n i).1.dynamic
        · exact absurd hb h2
        · rfl
      have hp : (h.attributeAt n i).2 = .kSuccess ∧ (h.attributeAt n i).1.isNull = false
          ∧ (h.attributeAt n i).1.dynamic = true := ⟨hst, hnn, hdyn⟩
      rw [if_neg h2, if_pos hp]
      have hfn : (h.attributeAt n i).1.fnAttrStatus = .kSuccess := by
        have := hdyn
        simp only [AttrObj.dynamic, decide_eq_true_eq] at this
        exact this.2.1
      rw [if_neg (not_not.mpr hfn)]
      by_cases h4 : (h.attributeAt n i).1.nameStatus ≠ .kSuccess
          ∨ (h.attributeAt n i).1.name.length = 0
      · rw [if_pos h4]
        refine Tracks_skip s L _ ht ?_
        rcases h4 with h4 | h4
        · exact Or.inl h4
        · exact Or.inr (List.length_eq_zero.mp h4)
      · rw [if_neg h4]
        refine Tracks_record s L n _ ht ?_ ?_
        · by_contra hc; exact h4 (Or.inl hc)
        · intro hc; exact h4 (Or.inr (by rw [hc]; rfl))

theorem Tracks_foldl {α : Type} (f : ExtraAttrScanner → α → ExtraAttrScanner)
    (g : α → List (NodeObj × AttrObj))
    (hstep : ∀ s L x, Tracks s L → Tracks (f s x) (L ++ g x)) :
    ∀ (xs : List α) (s : ExtraAttrScanner) (L : List (NodeObj × AttrObj)),
      Tracks s L → Tracks (xs.foldl f s) (L ++ xs.flatMap g) := by
  intro xs
  induction xs with
  | nil => intro s L ht; simpa using ht
  | cons x xs ih =>
    intro s L ht
    have := ih (f s x) (L ++ g x) (hstep s L x ht)
    simpa [List.flatMap_cons, List.append_assoc] using this

theorem pairsOf_eq_flatMap (h : Host) (n : NodeObj)
    (hv : n.isNull = false ∧ h.fnDepStatus n = .kSuccess ∧ (h.attributeCount n).2 = .kSuccess) :
    pairsOf h n = (List.range (h.attributeCount n).1).flatMap (pairsAt h n) := by
  unfold pairsOf attributesOf
  rw [if_pos hv]
  generalize List.range (h.attributeCount n).1 = l
  induction l with
  | nil => rfl
  | cons i l ih =>
    rw [List.flatMap_cons, ← ih]
    unfold pairsAt
    by_cases h1 : (h.attributeAt n i).2 = .kSuccess ∧ (h.attributeAt n i).1.isNull = false
    · by_cases h2 : (h.attributeAt n i).1.dynamic = true
      · simp [List.filterMap_cons, h1, h2]
      · simp [List.filterMap_cons, h1, h2]
    · have h1' : ¬ ((h.attributeAt n i).2 = .kSuccess ∧ (h.attributeAt n i).1.isNull = false
          ∧ (h.attributeAt n i).1.dynamic = true) := fun hc => h1 ⟨hc.1, hc.2.1⟩
      simp only [List.filterMap_cons, if_neg h1, if_neg h1', List.nil_append]

theorem Tracks_scanNode (h : Host) (s : ExtraAttrScanner) (L : List (NodeObj × AttrObj))
    (n : NodeObj) (ht : Tracks s L) : Tracks (scanNode h s n) (L ++ pairsOf h n) := by
  by_cases hv : n.isNull = false ∧ h.fnDepStatus n = .kSuccess
      ∧ (h.attributeCount n).2 = .kSuccess
  · rw [pairsOf_eq_flatMap h n hv]
    unfold scanNode
    rw [if_neg (by simp [hv.1]), if_neg (not_not.mpr hv.2.1), if_neg (not_not.mpr hv.2.2)]
    exact Tracks_foldl _ _ (fun s L i ht => Tracks_scanAttribute h n s L i ht) _ s L ht
  · have hp : pairsOf h n = [] := by
      unfold pairsOf attributesOf
      rw [if_neg hv]; rfl
    rw [hp, List.append_nil]
    unfold scanNode
    by_cases h1 : n.isNull = true
    · rw [if_pos h1]; exact ht
    · rw [if_neg h1]
      by_cases h2 : h.fnDepStatus n ≠ .kSuccess
      · rw [if_pos h2]; exact ht
      · rw [if_neg h2]
        by_cases h3 : (h.attributeCount n).2 ≠ .kSuccess
        · rw [if_pos h3]; exact ht
        · exfalso
          apply hv
          refine ⟨?_, not_not.mp h2, not_not.mp h3⟩
          cases hb : n.isNull
          · rfl
          · exact absurd hb h1

theorem Tracks_scanStep (h : Host) (s : ExtraAttrScanner) (L : List (NodeObj × AttrObj))
    (it : NodeObj × MStatus) (ht : Tracks s L) :
    Tracks (scanStep h s it) (L ++ (if it.2 = .kSuccess then pairsOf h it.1 else [])) := by
  unfold scanStep
  by_cases hs : it.2 = .kSuccess
  · rw [if_neg (not_not.mpr hs), if_pos hs]
    exact Tracks_scanNode h s L it.1 ht
  · rw [if_pos hs, if_neg hs, List.append_nil]
    exact ht

theorem dynamicPairs_eq_flatMap (h : Host) :
    dynamicPairs h
      = h.nodeItNodes.flatMap (fun it => if it.2 = .kSuccess then pairsOf h it.1 else []) := by
  unfold dynamicPairs visitedNodes
  generalize h.nodeItNodes = l
  induction l with
  | nil => rfl
  | cons it l ih =>
    rw [List.flatMap_cons, ← ih]
    by_cases hs : it.2 = .kSuccess
    · simp [List.filterMap_cons, hs, pairsOf]
    · simp [List.filterMap_cons, hs]

theorem Tracks_scanScene (h : Host) (s0 : ExtraAttrScanner)
    (hok : (scanScene h s0).1 = true) : Tracks (scanScene h s0).2.1 (dynamicPairs h) := by
  unfold scanScene at hok ⊢
  by_cases hs : h.nodeItStatus ≠ .kSuccess
  · simp [hs] at hok
  · simp only [if_neg hs]
    rw [dynamicPairs_eq_flatMap]
    have := Tracks_foldl (scanStep h) _ (fun s L it ht => Tracks_scanStep h s L it ht)
      h.nodeItNodes _ [] (Tracks_clearCache s0)
    simpa using this

theorem nodesCarrying_length (L : List (NodeObj × AttrObj)) (name : MString) :
    (nodesCarrying L name).length = L.countP (fun p => p.2.carries name) := by
  simp [nodesCarrying, List.countP_eq_length_filter]

theorem nodesCarrying_ne_nil_iff (L : List (NodeObj × AttrObj)) (name : MString) :
    nodesCarrying L name ≠ [] ↔ ∃ p ∈ L, p.2.carries name = true := by
  simp [nodesCarrying, List.filter_eq_nil_iff]

/-- C1: after a successful `scanScene`, the attribute-info map has a key for exactly the
non-empty names carried by a dynamic attribute on a visited node, and the usage count of
every key is the number of (visited node, dynamic attribute) pairs whose attribute carries
that name (as long as that number fits the `int` counter). -/
theorem scanScene_attributeInfoMap (h : Host) (s0 : ExtraAttrScanner)
    (hok : (scanScene h s0).1 = true) :
    (∀ name : MString,
      ((scanScene h s0).2.1.m_attributeInfoMap.find name).isSome = true ↔
        name ≠ [] ∧ ∃ p ∈ dynamicPairs h, p.2.carries name = true) ∧
    (∀ (name : MString) (info : AttributeInfo),
      (scanScene h s0).2.1.m_attributeInfoMap.find name = some info →
      (dynamicPairs h).countP (fun p => p.2.carries name) ≤ 2147483647 →
      info.usageCount = (dynamicPairs h).countP (fun p => p.2.carries name)) := by
  have ht := Tracks_scanScene h s0 hok
  constructor
  · intro name
    rcases ht name with ⟨hempty, hinfo, _⟩ | ⟨hne, hcar, _, info, hinfo, _⟩
    · rw [hinfo]
      simp only [Option.isSome_none, Bool.false_eq_true, false_iff, not_and]
      intro hne hex
      exact (nodesCarrying_ne_nil_iff _ _).2 hex (hempty.resolve_left hne)
    · rw [hinfo]
      simp only [Option.isSome_some, true_iff]
      exact ⟨hne, (nodesCarrying_ne_nil_iff _ _).1 hcar⟩
  · intro name info hfind hbound
    rcases ht name with ⟨_, hinfo, _⟩ | ⟨_, _, _, info', hinfo, hcount⟩
    · rw [hinfo] at hfind; exact absurd hfind (by simp)
    · rw [hinfo] at hfind
      have hi : info' = info := Option.some.inj hfind
      rw [← hi, ← nodesCarrying_length]
      exact hcount (by rw [nodesCarrying_length]; exact hbound)

theorem scanScene_attributeInfoMap_witness :
    (scanScene sampleHost freshScanner).1 = true ∧
    ((∀ name : MString,
      ((scanScene sampleHost freshScanner).2.1.m_attributeInfoMap.find name).isSome = true ↔
        name ≠ [] ∧ ∃ p ∈ dynamicPairs sampleHost, p.2.carries name = true) ∧
    (∀ (name : MString) (info : AttributeInfo),
      (scanScene sampleHost freshScanner).2.1.m_attributeInfoMap.find name = some info →
      (dynamicPairs sampleHost).countP (fun p => p.2.carries name) ≤ 2147483647 →
      info.usageCount = (dynamicPairs sampleHost).countP (fun p => p.2.carries name))) :=
  ⟨by decide, scanScene_attributeInfoMap sampleHost freshScanner (by decide)⟩

/-- C2: `isExtraAttribute` returns true exactly when the attribute is non-null, an
attribute function set attaches to it, and the host reports the dynamic flag as true with
a success status; two attributes that agree on these three facts get the same result,
whatever else differs (name, type, owning node). -/
theorem isExtraAttribute_iff :
    (∀ (attr : AttrObj) (fnDep : NodeObj),
      isExtraAttribute attr fnDep = true ↔
        attr.isNull = false ∧ attr.fnAttrStatus = .kSuccess
          ∧ (attr.isDynamic = true ∧ attr.isDynamicStatus = .kSuccess)) ∧
    (∀ (a b : AttrObj) (na nb : NodeObj),
      (a.isNull = false ↔ b.isNull = false) →
      (a.fnAttrStatus = .kSuccess ↔ b.fnAttrStatus = .kSuccess) →
      ((a.isDynamic = true ∧ a.isDynamicStatus = .kSuccess) ↔
        (b.isDynamic = true ∧ b.isDynamicStatus = .kSuccess)) →
      isExtraAttribute a na = isExtraAttribute b nb) := by
  have key : ∀ (attr : AttrObj) (fnDep : NodeObj),
      isExtraAttribute attr fnDep = true ↔
        attr.isNull = false ∧ attr.fnAttrStatus = .kSuccess
          ∧ (attr.isDynamic = true ∧ attr.isDynamicStatus = .kSuccess) := by
    intro attr fnDep
    rw [isExtraAttribute_eq_dynamic]
    simp only [AttrObj.dynamic, decide_eq_true_eq]
    tauto
  refine ⟨key, ?_⟩
  intro a b na nb h1 h2 h3
  rw [Bool.eq_iff_iff, key, key, h1, h2, h3]

theorem filterMap_nodeValueOf_valid (h : Host) (name : MString) (nodes : List NodeObj)
    (hv : ∀ n ∈ nodes, n.isNull = false ∧ h.fnDepStatus n = .kSuccess) :
    (nodes.filterMap (nodeValueOf h name)).map (fun v => v.nodeObj) = nodes := by
  induction nodes with
  | nil => rfl
  | cons n rest ih =>
    have hn := hv n (List.mem_cons_self n rest)
    have hrest := ih (fun m hm => hv m (List.mem_cons_of_mem n hm))
    have hval : ∃ v, nodeValueOf h name n = some v ∧ v.nodeObj = n := by
      unfold nodeValueOf
      rw [if_neg (by simp [hn.1]), if_neg (not_not.mpr hn.2)]
      exact ⟨_, rfl, rfl⟩
    obtain ⟨v, hv1, hv2⟩ := hval
    rw [List.filterMap_cons, hv1, List.map_cons, hv2, hrest]

/-- C3: after a successful scan, for a name present in the attribute-info map whose
recorded nodes are all still valid dependency nodes for the host asked, the result of
`getNodesWithAttribute` has one entry per recorded node, in the order the scan met them,
and as many entries as the usage count (as long as that number fits the `int` counter);
for a name absent from the map the result is empty. -/
theorem getNodesWithAttribute_scan (h h' : Host) (s0 : ExtraAttrScanner)
    (hok : (scanScene h s0).1 = true) (name : MString) :
    (∀ info : AttributeInfo,
      (scanScene h s0).2.1.m_attributeInfoMap.find name = some info →
      (∀ nodes, (scanScene h s0).2.1.m_attrToNodesMap.find name = some nodes →
        ∀ n ∈ nodes, n.isNull = false ∧ h'.fnDepStatus n = .kSuccess) →
      (scanScene h s0).2.1.m_attrToNodesMap.find name
          = some (nodesCarrying (dynamicPairs h) name)
        ∧ (getNodesWithAttribute h' (scanScene h s0).2.1 name).map (fun v => v.nodeObj)
          = nodesCarrying (dynamicPairs h) name
        ∧ ((nodesCarrying (dynamicPairs h) name).length ≤ 2147483647 →
          ((getNodesWithAttribute h' (scanScene h s0).2.1 name).length : Int)
            = info.usageCount)) ∧
    ((scanScene h s0).2.1.m_attributeInfoMap.find name = none →
      getNodesWithAttribute h' (scanScene h s0).2.1 name = []) := by
  have ht := Tracks_scanScene h s0 hok
  constructor
  · intro info hfind hvalid
    rcases ht name with ⟨_, hinfo, _⟩ | ⟨_, _, hnodes, info', hinfo, hcount⟩
    · rw [hinfo] at hfind; exact absurd hfind (by simp)
    · have hmap := filterMap_nodeValueOf_valid h' name _ (hvalid _ hnodes)
      have hres : getNodesWithAttribute h' (scanScene h s0).2.1 name
          = (nodesCarrying (dynamicPairs h) name).filterMap (nodeValueOf h' name) := by
        simp only [getNodesWithAttribute, hnodes, hinfo]
      refine ⟨hnodes, by rw [hres]; exact hmap, ?_⟩
      intro hlen
      rw [hinfo] at hfind
      have hi : info' = info := Option.some.inj hfind
      rw [← hi, hcount hlen, hres]
      have := congrArg List.length hmap
      rw [List.length_map] at this
      rw [this]
  · intro hnone
    unfold getNodesWithAttribute
    rw [hnone]
    cases (scanScene h s0).2.1.m_attrToNodesMap.find name <;> rfl

theorem getNodesWithAttribute_scan_witness :
    (scanScene sampleHost freshScanner).1 = true ∧
    ((∀ info : AttributeInfo,
      (scanScene sampleHost freshScanner).2.1.m_attributeInfoMap.find (mstr "myAttr")
        = some info →
      (∀ nodes,
        (scanScene sampleHost freshScanner).2.1.m_attrToNodesMap.find (mstr "myAttr")
          = some nodes →
        ∀ n ∈ nodes, n.isNull = false ∧ sampleHost.fnDepStatus n = .kSuccess) →
      (scanScene sampleHost freshScanner).2.1.m_attrToNodesMap.find (mstr "myAttr")
          = some (nodesCarrying (dynamicPairs sampleHost) (mstr "myAttr"))
        ∧ (getNodesWithAttribute sampleHost (scanScene sampleHost freshScanner).2.1
            (mstr "myAttr")).map (fun v => v.nodeObj)
          = nodesCarrying (dynamicPairs sampleHost) (mstr "myAttr")
        ∧ ((nodesCarrying (dynamicPairs sampleHost) (mstr "myAttr")).length ≤ 2147483647 →
          ((getNodesWithAttribute sampleHost (scanScene sampleHost freshScanner).2.1
            (mstr "myAttr")).length : Int) = info.usageCount)) ∧
    ((scanScene sampleHost freshScanner).2.1.m_attributeInfoMap.find (mstr "myAttr") = none →
      getNodesWithAttribute sampleHost (scanScene sampleHost freshScanner).2.1 (mstr "myAttr")
        = [])) :=
  ⟨by decide, getNodesWithAttribute_scan sampleHost sampleHost freshScanner (by decide)
    (mstr "myAttr")⟩

/-! ## Value utilities -/

/-- C4: for a numeric attribute of kind `kShort` the function returns true although it
hands nothing to `MPlug::setValue`, on every host, plug and value string; the same holds
for the two-component kind `k2Double`. -/
theorem setAttributeValueFromString_short_unwritten (h : Host) (plug : MPlug)
    (value name : MString) (dynamic : Bool) :
    setAttributeValueFromString h plug (sampleNumeric name .kShort dynamic) value
        = some ⟨true, none⟩ ∧
      setAttributeValueFromString h plug (sampleNumeric name .k2Double dynamic) value
        = some ⟨true, none⟩ := by
  constructor <;> rfl

theorem decimalDigitsRev_digit : ∀ (fuel n c : Nat), c ∈ decimalDigitsRev fuel n →
    48 ≤ c ∧ c ≤ 57 := by
  intro fuel
  induction fuel with
  | zero => intro n c hc; simp [decimalDigitsRev] at hc
  | succ fuel ih =>
    intro n c hc
    unfold decimalDigitsRev at hc
    rcases List.mem_cons.mp hc with hhead | htail
    · omega
    · by_cases hz : n / 10 = 0
      · rw [if_pos hz] at htail; exact absurd htail (List.not_mem_nil c)
      · rw [if_neg hz] at htail; exact ih _ c htail

theorem decimalDigitsRev_ne_nil (fuel n : Nat) : decimalDigitsRev (fuel + 1) n ≠ [] := by
  unfold decimalDigitsRev; simp

theorem decimalPrefix_digits : ∀ (fuel n : Nat), n < fuel → ∀ rest : MString,
    decimalPrefix 0 ((decimalDigitsRev fuel n).reverse ++ rest) = decimalPrefix n rest := by
  intro fuel
  induction fuel with
  | zero => intro n hn; exact absurd hn (Nat.not_lt_zero n)
  | succ fuel ih =>
    intro n hn rest
    unfold decimalDigitsRev
    have hstep : ∀ acc : Nat,
        decimalPrefix acc ((48 + n % 10) :: rest) = decimalPrefix (acc * 10 + n % 10) rest := by
      intro acc
      have hd : 48 ≤ 48 + n % 10 ∧ 48 + n % 10 ≤ 57 := by omega
      simp only [decimalPrefix, if_pos hd, Nat.add_sub_cancel_left]
    by_cases hz : n / 10 = 0
    · rw [if_pos hz]
      have hn' : n % 10 = n := by omega
      simp only [List.reverse_cons, List.reverse_nil, List.nil_append, List.singleton_append]
      rw [hstep 0, hn']
      simp
    · rw [if_neg hz]
      simp only [List.reverse_cons, List.append_assoc, List.singleton_append]
      rw [ih (n / 10) (by omega) _, hstep (n / 10)]
      congr 1
      omega

theorem decimalAsInt_digits (l : MString) (hne : l ≠ []) (hd : ∀ c ∈ l, 48 ≤ c ∧ c ≤ 57) :
    decimalAsInt l = (decimalPrefix 0 l : Int) := by
  cases l with
  | nil => exact absurd rfl hne
  | cons c cs =>
    have hc := hd c (List.mem_cons_self c cs)
    have hne45 : ¬ c = 45 := by omega
    simp only [decimalAsInt, if_neg hne45]

/-- Decimal text read back: `decimalAsInt` undoes `decimalOfInt`. -/
theorem decimalAsInt_decimalOfInt (i : Int) : decimalAsInt (decimalOfInt i) = i := by
  have hparse : decimalPrefix 0 (decimalDigitsRev (i.natAbs + 1) i.natAbs).reverse = i.natAbs := by
    have := decimalPrefix_digits (i.natAbs + 1) i.natAbs (Nat.lt_succ_self _) []
    simpa [decimalPrefix] using this
  unfold decimalOfInt
  by_cases hneg : i < 0
  · rw [if_pos hneg]
    simp only [decimalAsInt, if_true, hparse]
    omega
  · rw [if_neg hneg]
    rw [decimalAsInt_digits _ (by simpa using decimalDigitsRev_ne_nil _ _)
      (fun c hc => decimalDigitsRev_digit _ _ c (List.mem_reverse.mp hc)), hparse]
    omega

/-- C5: for a readable bool, int or string attribute whose plug holds `v`, and a host
whose `asInt` reads back the text it makes of an `int`, setting the plug from the string
`getAttributeValueAsString` returns hands `v` itself to `MPlug::setValue`. -/
theorem setAttributeValueFromString_getAttributeValueAsString (h : Host) (node : NodeObj)
    (attr : AttrObj) (v : PlugValue) (hread : Readable h node attr)
    (hheld : heldValue h ⟨node, attr⟩ attr = some v)
    (hconv : ∀ i, v = .int i → h.asInt (h.ofInt i) = i) :
    setAttributeValueFromString h ⟨node, attr⟩ attr (getAttributeValueAsString h node attr)
      = some (setValueAndReturn h ⟨node, attr⟩ v) ∧
    (setValueAndReturn h ⟨node, attr⟩ v).written = some v := by
  refine ⟨?_, rfl⟩
  obtain ⟨h1, h2, h3, h4, h5, h6⟩ := hread
  have hget : getAttributeValueAsString h node attr =
      match attr.apiType with
      | .kNumericAttribute =>
        match attr.numericUnitType with
        | .kBoolean => if h.getBool ⟨node, attr⟩ then mstr "true" else mstr "false"
        | .kInt => h.ofInt (h.getInt ⟨node, attr⟩)
        | .kFloat => h.ofFloat (h.getFloat ⟨node, attr⟩)
        | .kDouble => h.ofDouble (h.getDouble ⟨node, attr⟩)
        | .kShort => h.ofInt (h.getShort ⟨node, attr⟩)
        | _ => h.plugAsString ⟨node, attr⟩
      | .kTypedAttribute =>
        if attr.typedAttrType = .kString then h.getString ⟨node, attr⟩
        else h.plugAsString ⟨node, attr⟩
      | .kEnumAttribute =>
        if (attr.enumFieldName (h.getShort ⟨node, attr⟩)).2 = .kSuccess
            ∧ (attr.enumFieldName (h.getShort ⟨node, attr⟩)).1.length > 0 then
          (attr.enumFieldName (h.getShort ⟨node, attr⟩)).1
        else h.ofInt (h.getShort ⟨node, attr⟩)
      | _ => h.plugAsString ⟨node, attr⟩ := by
    unfold getAttributeValueAsString
    simp [h1, h2, h3, h4, h5, h6]
  rw [hget]
  unfold heldValue at hheld
  by_cases hb : attr.apiType = .kNumericAttribute ∧ attr.numericUnitType = .kBoolean
  · rw [if_pos hb] at hheld
    have hv : v = .bool (h.getBool ⟨node, attr⟩) := (Option.some.inj hheld).symm
    subst hv
    unfold setAttributeValueFromString
    simp only [hb.1, hb.2, if_true]
    cases h.getBool ⟨node, attr⟩
    · have : ¬ (mstr "false" = mstr "true" ∨ mstr "false" = mstr "1") := by decide
      simp [this]
    · simp
  · rw [if_neg hb] at hheld
    by_cases hi : attr.apiType = .kNumericAttribute ∧ attr.numericUnitType = .kInt
    · rw [if_pos hi] at hheld
      have hv : v = .int (h.getInt ⟨node, attr⟩) := (Option.some.inj hheld).symm
      subst hv
      unfold setAttributeValueFromString
      simp [hi.1, hi.2, hconv _ rfl]
    · rw [if_neg hi] at hheld
      by_cases hs : attr.apiType = .kTypedAttribute ∧ attr.typedAttrType = .kString
      · rw [if_pos hs] at hheld
        have hv : v = .string (h.getString ⟨node, attr⟩) := (Option.some.inj hheld).symm
        subst hv
        unfold setAttributeValueFromString
        simp [hs.1, hs.2]
      · rw [if_neg hs] at hheld
        exact absurd hheld (by simp)

theorem setAttributeValueFromString_getAttributeValueAsString_witness :
    Readable sampleHost (.node 0) (sampleNumeric (mstr "count") .kInt true) ∧
    heldValue sampleHost ⟨.node 0, sampleNumeric (mstr "count") .kInt true⟩
      (sampleNumeric (mstr "count") .kInt true) = some (.int (-42)) ∧
    (∀ i, PlugValue.int (-42) = .int i → sampleHost.asInt (sampleHost.ofInt i) = i) ∧
    (setAttributeValueFromString sampleHost ⟨.node 0, sampleNumeric (mstr "count") .kInt true⟩
        (sampleNumeric (mstr "count") .kInt true)
        (getAttributeValueAsString sampleHost (.node 0) (sampleNumeric (mstr "count") .kInt true))
      = some (setValueAndReturn sampleHost ⟨.node 0, sampleNumeric (mstr "count") .kInt true⟩
          (.int (-42))) ∧
    (setValueAndReturn sampleHost ⟨.node 0, sampleNumeric (mstr "count") .kInt true⟩
      (.int (-42))).written = some (.int (-42))) :=
  have hread : Readable sampleHost (.node 0) (sampleNumeric (mstr "count") .kInt true) := by
    refine ⟨rfl, rfl, rfl, rfl, rfl, rfl⟩
  have hconv : ∀ i, PlugValue.int (-42) = .int i →
      sampleHost.asInt (sampleHost.ofInt i) = i :=
    fun i _ => decimalAsInt_decimalOfInt i
  ⟨hread, rfl, hconv,
    setAttributeValueFromString_getAttributeValueAsString sampleHost (.node 0)
      (sampleNumeric (mstr "count") .kInt true) (.int (-42)) hread rfl hconv⟩

/-! ## Commands -/

theorem createForType_unsupported (h : Host) (attrName attrType : MString)
    (hT : attrType ∉ acceptedTypeNames) :
    createForType h attrName attrType
      = .error (.kFailure, mstr "Unsupported attribute type: " ++ attrType) := by
  simp only [acceptedTypeNames, List.mem_cons, List.mem_singleton, not_or, List.not_mem_nil,
    or_false] at hT
  obtain ⟨h1, h2, h3, h4, h5, h6, h7, h8⟩ := hT
  unfold createForType
  rw [if_neg (by tauto), if_neg (by tauto), if_neg (by tauto), if_neg h7, if_neg h8]

/-- C7: `doAdd` with a type name that is none of `double`, `float`, `int`, `long`,
`bool`, `boolean`, `string`, `enum` returns `kFailure`, hands no attribute to
`addAttribute` (it changes nothing on any node), and leaves the command object as it
was, so a command that was not undoable stays so. -/
theorem doAdd_unsupported_type (h : Host) (c : ExtraAttrManagerCmd) (ui : Bool)
    (nodeName attrName attrType : MString) (hT : attrType ∉ acceptedTypeNames) :
    (doAdd h c ui nodeName attrName attrType).status = .kFailure ∧
    addedAttributes (doAdd h c ui nodeName attrName attrType) = [] ∧
    (∀ e ∈ (doAdd h c ui nodeName attrName attrType).effects, e.changesScene = false) ∧
    (doAdd h c ui nodeName attrName attrType).cmd = c ∧
    (c.isUndoable = false →
      (doAdd h c ui nodeName attrName attrType).cmd.isUndoable = false) := by
  unfold doAdd
  by_cases hn : (getDependencyNodeFromName h nodeName).1 = false
  · simp [hn, addedAttributes, Effect.changesScene]
  · simp [hn, createForType_unsupported h attrName attrType hT, addedAttributes,
      Effect.changesScene]

theorem doAdd_unsupported_type_witness :
    mstr "Double" ∉ acceptedTypeNames ∧
    ((doAdd sampleHost .creator false (mstr "pCube1") (mstr "speed") (mstr "Double")).status
        = .kFailure ∧
    addedAttributes (doAdd sampleHost .creator false (mstr "pCube1") (mstr "speed")
      (mstr "Double")) = [] ∧
    (∀ e ∈ (doAdd sampleHost .creator false (mstr "pCube1") (mstr "speed")
      (mstr "Double")).effects, e.changesScene = false) ∧
    (doAdd sampleHost .creator false (mstr "pCube1") (mstr "speed") (mstr "Double")).cmd
      = .creator ∧
    (ExtraAttrManagerCmd.creator.isUndoable = false →
      (doAdd sampleHost .creator false (mstr "pCube1") (mstr "speed")
        (mstr "Double")).cmd.isUndoable = false)) :=
  ⟨by decide, doAdd_unsupported_type sampleHost .creator false (mstr "pCube1") (mstr "speed")
    (mstr "Double") (by decide)⟩

/-- C9: when the node name does not resolve to a dependency node, or the resolved node
has no attribute of the given name, `doEdit` and `doDelete` return `kFailure`, have no
effect that changes an attribute or a value on a node, and leave the command object as it
was, so `isUndoable()` stays false. -/
theorem doEdit_doDelete_not_found (h : Host) (c : ExtraAttrManagerCmd) (ui : Bool)
    (nodeName attrName value : MString)
    (hmiss : (getDependencyNodeFromName h nodeName).1 = false
      ∨ (h.attributeByName (getDependencyNodeFromName h nodeName).2 attrName).2 ≠ .kSuccess
      ∨ (h.attributeByName (getDependencyNodeFromName h nodeName).2 attrName).1.isNull = true) :
    (∃ r, doEdit h c ui nodeName attrName value = some r ∧ r.status = .kFailure
      ∧ (∀ e ∈ r.effects, e.changesScene = false) ∧ r.cmd = c
      ∧ (c.isUndoable = false → r.cmd.isUndoable = false)) ∧
    ((doDelete h c ui nodeName attrName).status = .kFailure
      ∧ (∀ e ∈ (doDelete h c ui nodeName attrName).effects, e.changesScene = false)
      ∧ (doDelete h c ui nodeName attrName).cmd = c
      ∧ (c.isUndoable = false → (doDelete h c ui nodeName attrName).cmd.isUndoable = false)) := by
  by_cases hn : (getDependencyNodeFromName h nodeName).1 = false
  · constructor
    · refine ⟨⟨.kFailure, c, ui, [.displayError (mstr "Node not found: " ++ nodeName)]⟩, ?_, rfl,
        ?_, rfl, fun hc => hc⟩
      · unfold doEdit; simp [hn]
      · intro e he; simp at he; subst he; rfl
    · unfold doDelete
      simp [hn, Effect.changesScene]
  · have ha : (h.attributeByName (getDependencyNodeFromName h nodeName).2 attrName).2 ≠ .kSuccess
        ∨ (h.attributeByName (getDependencyNodeFromName h nodeName).2 attrName).1.isNull = true :=
      hmiss.resolve_left hn
    constructor
    · refine ⟨⟨.kFailure, c, ui, [.displayError (mstr "Attribute not found: " ++ attrName)]⟩, ?_,
        rfl, ?_, rfl, fun hc => hc⟩
      · unfold doEdit
        simp only [hn, if_false]
        rw [if_pos ha]
        simp
      · intro e he; simp at he; subst he; rfl
    · unfold doDelete
      simp only [hn, if_false]
      rw [if_pos ha]
      simp [Effect.changesScene]

theorem doEdit_doDelete_not_found_witness :
    ((getDependencyNodeFromName sampleHost (mstr "pCube1")).1 = false
      ∨ (sampleHost.attributeByName (getDependencyNodeFromName sampleHost (mstr "pCube1")).2
          (mstr "noSuchAttr")).2 ≠ .kSuccess
      ∨ (sampleHost.attributeByName (getDependencyNodeFromName sampleHost (mstr "pCube1")).2
          (mstr "noSuchAttr")).1.isNull = true) ∧
    ((∃ r, doEdit sampleHost .creator false (mstr "pCube1") (mstr "noSuchAttr") (mstr "1")
        = some r ∧ r.status = .kFailure
      ∧ (∀ e ∈ r.effects, e.changesScene = false) ∧ r.cmd = .creator
      ∧ (ExtraAttrManagerCmd.creator.isUndoable = false → r.cmd.isUndoable = false)) ∧
    ((doDelete sampleHost .creator false (mstr "pCube1") (mstr "noSuchAttr")).status = .kFailure
      ∧ (∀ e ∈ (doDelete sampleHost .creator false (mstr "pCube1")
          (mstr "noSuchAttr")).effects, e.changesScene = false)
      ∧ (doDelete sampleHost .creator false (mstr "pCube1") (mstr "noSuchAttr")).cmd = .creator
      ∧ (ExtraAttrManagerCmd.creator.isUndoable = false →
          (doDelete sampleHost .creator false (mstr "pCube1")
            (mstr "noSuchAttr")).cmd.isUndoable = false))) :=
  have hmiss : (getDependencyNodeFromName sampleHost (mstr "pCube1")).1 = false
      ∨ (sampleHost.attributeByName (getDependencyNodeFromName sampleHost (mstr "pCube1")).2
          (mstr "noSuchAttr")).2 ≠ .kSuccess
      ∨ (sampleHost.attributeByName (getDependencyNodeFromName sampleHost (mstr "pCube1")).2
          (mstr "noSuchAttr")).1.isNull = true := Or.inr (Or.inl (by decide))
  ⟨hmiss, doEdit_doDelete_not_found sampleHost .creator false (mstr "pCube1")
    (mstr "noSuchAttr") (mstr "1") hmiss⟩

/-- C10: when the arguments parse and none of the nine flags is set, `doIt` does what
`doShowUI` does, and its outcome (status, command object, window singleton and effects)
is that of an invocation whose arguments parse with only the `-ui` flag set. -/
theorem doIt_no_flag (h : Host) (c : ExtraAttrManagerCmd) (ui : Bool)
    (argData uiOnly : MArgDatabase)
    (hparse : argData.status = .kSuccess) (hnone : ∀ f, argData.isFlagSet f = false)
    (hparse' : uiOnly.status = .kSuccess)
    (honly : ∀ f, uiOnly.isFlagSet f = decide (f = .kUIFlag)) :
    doIt h c ui argData = some (doShowUI c ui) ∧ doIt h c ui argData = doIt h c ui uiOnly := by
  have h1 : doIt h c ui argData = some (doShowUI c ui) := by
    unfold doIt
    simp [hparse, hnone]
  have h2 : doIt h c ui uiOnly = some (doShowUI c ui) := by
    unfold doIt
    simp [hparse', honly]
  exact ⟨h1, h1.trans h2.symm⟩

theorem doIt_no_flag_witness :
    (argsWithFlags [] (fun _ _ => ([], .kFailure))).status = .kSuccess ∧
    (∀ f, (argsWithFlags [] (fun _ _ => ([], .kFailure))).isFlagSet f = false) ∧
    (argsWithFlags [.kUIFlag] (fun _ _ => ([], .kFailure))).status = .kSuccess ∧
    (∀ f, (argsWithFlags [.kUIFlag] (fun _ _ => ([], .kFailure))).isFlagSet f
      = decide (f = .kUIFlag)) ∧
    (doIt sampleHost .creator false (argsWithFlags [] (fun _ _ => ([], .kFailure)))
        = some (doShowUI .creator false) ∧
      doIt sampleHost .creator false (argsWithFlags [] (fun _ _ => ([], .kFailure)))
        = doIt sampleHost .creator false
            (argsWithFlags [.kUIFlag] (fun _ _ => ([], .kFailure)))) :=
  have hnone : ∀ f, (argsWithFlags [] (fun _ _ => ([], .kFailure))).isFlagSet f = false := by
    intro f; cases f <;> rfl
  have honly : ∀ f, (argsWithFlags [.kUIFlag] (fun _ _ => ([], .kFailure))).isFlagSet f
      = decide (f = .kUIFlag) := by
    intro f; cases f <;> rfl
  ⟨rfl, hnone, rfl, honly,
    doIt_no_flag sampleHost .creator false _ _ rfl hnone rfl honly⟩

/-! ## Enum fields -/

theorem getAttributeTypeName_numeric (a : AttrObj) (hn : a.isNull = false)
    (ha : a.apiType = .kNumericAttribute) :
    getAttributeTypeName a =
      match a.numericUnitType with
      | .kBoolean => mstr "bool"
      | .kInt => mstr "int"
      | .kFloat => mstr "float"
      | .kDouble => mstr "double"
      | .kShort => mstr "short"
      | .k2Float => mstr "float2"
      | .k2Double => mstr "double2"
      | .k3Float => mstr "float3"
      | .k3Double => mstr "double3"
      | _ => mstr "numeric" := by
  unfold getAttributeTypeName
  simp only [hn, ha, Bool.false_eq_true, if_false]

theorem createForType_numeric_typeName (h : Host) (hhost : CreatesAsAsked h)
    (attrName : MString) (t : MFnNumericData) (msg : MString) (a : AttrObj)
    (hc : (if (h.createNumeric attrName t).2 ≠ .kSuccess then
        (Except.error ((h.createNumeric attrName t).2, msg) : Except (MStatus × MString) AttrObj)
      else .ok ((h.createNumeric attrName t).1.setKeyable true)) = .ok a) :
    a.isNull = false ∧ a.apiType = .kNumericAttribute ∧ a.numericUnitType = t := by
  by_cases hs : (h.createNumeric attrName t).2 ≠ .kSuccess
  · rw [if_pos hs] at hc; exact absurd hc (by simp)
  · rw [if_neg hs] at hc
    have ha : (h.createNumeric attrName t).1.setKeyable true = a := Except.ok.inj hc
    rw [← ha]
    exact hhost.1 attrName t (not_not.mp hs)

theorem createForType_typeName (h : Host) (hhost : CreatesAsAsked h)
    (attrName attrType : MString) (hT : attrType ∈ acceptedTypeNames) (a : AttrObj)
    (hc : createForType h attrName attrType = .ok a) :
    getAttributeTypeName a = reportedTypeName attrType := by
  have numeric : ∀ (t : MFnNumericData) (msg : MString),
      (if (h.createNumeric attrName t).2 ≠ .kSuccess then
        (Except.error ((h.createNumeric attrName t).2, msg) : Except (MStatus × MString) AttrObj)
      else .ok ((h.createNumeric attrName t).1.setKeyable true)) = .ok a →
      getAttributeTypeName a =
        match t with
        | .kBoolean => mstr "bool"
        | .kInt => mstr "int"
        | .kFloat => mstr "float"
        | .kDouble => mstr "double"
        | .kShort => mstr "short"
        | .k2Float => mstr "float2"
        | .k2Double => mstr "double2"
        | .k3Float => mstr "float3"
        | .k3Double => mstr "double3"
        | _ => mstr "numeric" := by
    intro t msg hc'
    obtain ⟨h1, h2, h3⟩ := createForType_numeric_typeName h hhost attrName t msg a hc'
    rw [getAttributeTypeName_numeric a h1 h2, h3]
  simp only [acceptedTypeNames, List.mem_cons, List.mem_singleton, List.not_mem_nil,
    or_false] at hT
  rcases hT with rfl | rfl | rfl | rfl | rfl | rfl | rfl | rfl
  · exact numeric .kDouble _ hc
  · exact numeric .kDouble _ hc
  · exact numeric .kInt _ hc
  · exact numeric .kInt _ hc
  · exact numeric .kBoolean _ hc
  · exact numeric .kBoolean _ hc
  · have hc' : (if (h.createTyped attrName .kString).2 ≠ .kSuccess then
        (Except.error ((h.createTyped attrName .kString).2,
          mstr "Failed to create typed attribute") : Except (MStatus × MString) AttrObj)
      else .ok (h.createTyped attrName .kString).1) = .ok a := hc
    by_cases hs : (h.createTyped attrName .kString).2 ≠ .kSuccess
    · rw [if_pos hs] at hc'; exact absurd hc' (by simp)
    · rw [if_neg hs] at hc'
      have ha : (h.createTyped attrName .kString).1 = a := Except.ok.inj hc'
      obtain ⟨h1, h2, h3⟩ := hhost.2.1 attrName .kString (not_not.mp hs)
      rw [← ha]
      unfold getAttributeTypeName
      simp only [h1, h2, h3, Bool.false_eq_true, if_false]
      rfl
  · have hc' : (if (h.createEnum attrName).2 ≠ .kSuccess then
        (Except.error ((h.createEnum attrName).2,
          mstr "Failed to create enum attribute") : Except (MStatus × MString) AttrObj)
      else .ok (((h.createEnum attrName).1.addField (mstr "option1") 0).addField
        (mstr "option2") 1)) = .ok a := hc
    by_cases hs : (h.createEnum attrName).2 ≠ .kSuccess
    · rw [if_pos hs] at hc'; exact absurd hc' (by simp)
    · rw [if_neg hs] at hc'
      have ha : ((h.createEnum attrName).1.addField (mstr "option1") 0).addField
        (mstr "option2") 1 = a := Except.ok.inj hc'
      obtain ⟨h1, h2⟩ := hhost.2.2 attrName (not_not.mp hs)
      rw [← ha]
      unfold getAttributeTypeName
      simp only [AttrObj.addField, h1, h2, Bool.false_eq_true, if_false]
      rfl

theorem createForType_error_status (h : Host) (attrName attrType : MString)
    (e : MStatus × MString) (hcre : createForType h attrName attrType = .error e) :
    e.1 ≠ .kSuccess := by
  intro hs
  unfold createForType at hcre
  split_ifs at hcre <;> (cases hcre; simp_all)

/-- C8, on the code: adding with the accepted type name `float` succeeds on the sample
host, and the scanner reports the attribute added as `double`, not as `float`. -/
theorem doAdd_float_reported_double :
    mstr "float" ∈ acceptedTypeNames ∧
    (doAdd sampleHost .creator false (mstr "pCube1") (mstr "speed") (mstr "float")).status
      = .kSuccess ∧
    (addedAttributes (doAdd sampleHost .creator false (mstr "pCube1") (mstr "speed")
      (mstr "float"))).map getAttributeTypeName = [mstr "double"] ∧
    ¬ ((addedAttributes (doAdd sampleHost .creator false (mstr "pCube1") (mstr "speed")
      (mstr "float"))).map getAttributeTypeName = [mstr "float"]) := by
  decide

/-- C8, amended: when the host creates what it is asked for and `doAdd` succeeds with an
accepted type name, the one attribute it adds is reported by `getAttributeTypeName` as
`double` for `double` and `float`, `int` for `int` and `long`, `bool` for `bool` and
`boolean`, `string` for `string` and `enum` for `enum`. -/
theorem doAdd_reported_type (h : Host) (c : ExtraAttrManagerCmd) (ui : Bool)
    (nodeName attrName attrType : MString) (hhost : CreatesAsAsked h)
    (hT : attrType ∈ acceptedTypeNames)
    (hok : (doAdd h c ui nodeName attrName attrType).status = .kSuccess) :
    (addedAttributes (doAdd h c ui nodeName attrName attrType)).map getAttributeTypeName
      = [reportedTypeName attrType] := by
  unfold doAdd at hok ⊢
  by_cases hn : (getDependencyNodeFromName h nodeName).1 = false
  · rw [if_pos hn] at hok; simp at hok
  · rw [if_neg hn] at hok ⊢
    cases hcre : createForType h attrName attrType with
    | error e =>
      rw [hcre] at hok
      exact absurd hok (createForType_error_status h attrName attrType e hcre)
    | ok a =>
      have hname := createForType_typeName h hhost attrName attrType hT a hcre
      simp only
      by_cases hadd : h.addAttributeStatus (getDependencyNodeFromName h nodeName).2 a ≠ .kSuccess
      · simp [hadd, addedAttributes, hname]
      · simp [hadd, addedAttributes, hname]

theorem doAdd_reported_type_witness :
    CreatesAsAsked sampleHost ∧ mstr "long" ∈ acceptedTypeNames ∧
    (doAdd sampleHost .creator false (mstr "pCube1") (mstr "speed") (mstr "long")).status
      = .kSuccess ∧
    (addedAttributes (doAdd sampleHost .creator false (mstr "pCube1") (mstr "speed")
      (mstr "long"))).map getAttributeTypeName = [reportedTypeName (mstr "long")] :=
  have hhost : CreatesAsAsked sampleHost :=
    ⟨fun _ _ _ => ⟨rfl, rfl, rfl⟩, fun _ _ _ => ⟨rfl, rfl, rfl⟩, fun _ _ => ⟨rfl, rfl⟩⟩
  ⟨hhost, by decide, by decide,
    doAdd_reported_type sampleHost .creator false (mstr "pCube1") (mstr "speed") (mstr "long")
      hhost (by decide) (by decide)⟩

/-! ## NodeAttributeModel: editing -/

theorem setData_rejected (m : NodeAttributeModel) (index : QModelIndex) (value : QVariant)
    (role : Int)
    (hrej : index.isValid = false ∨ ¬ index.row < m.m_rows.length ∨ role ≠ Qt.EditRole
      ∨ index.column ≠ NodeAttributeModel.COL_VALUE) :
    m.setData index value role = (false, m, []) := by
  unfold NodeAttributeModel.setData
  by_cases h1 : index.isValid = false ∨ index.row ≥ m.m_rows.length ∨ role ≠ Qt.EditRole
  · rw [if_pos h1]
  · rw [if_neg h1]
    have hcol : index.column ≠ NodeAttributeModel.COL_VALUE := by
      rcases hrej with h | h | h | h
      · exact absurd (Or.inl h) h1
      · exact absurd (Or.inr (Or.inl (not_lt.mp h))) h1
      · exact absurd (Or.inr (Or.inr h)) h1
      · exact h
    rw [if_pos hcol]

/-- C13: given base-class flags that never contain the editable flag, `flags(index)` of
`NodeAttributeModel` contains the editable flag exactly when the index is valid and its
column is the Value column; and `setData` returns false, leaves the model as it was and
emits no signal whenever the index is invalid, its row is not below the row count, the
role is not `EditRole`, or the column is not the Value column. -/
theorem NodeAttributeModel_only_value_editable (base : QModelIndex → ItemFlags)
    (hbase : ∀ index, base index .ItemIsEditable = false) :
    (∀ index : QModelIndex,
      NodeAttributeModel.flags base index .ItemIsEditable = true ↔
        index.isValid = true ∧ index.column = NodeAttributeModel.COL_VALUE) ∧
    (∀ (m : NodeAttributeModel) (index : QModelIndex) (value : QVariant) (role : Int),
      (index.isValid = false ∨ ¬ index.row < m.rowCount ⟨-1, -1, false⟩ ∨ role ≠ Qt.EditRole
        ∨ index.column ≠ NodeAttributeModel.COL_VALUE) →
      m.setData index value role = (false, m, [])) := by
  constructor
  · intro index
    unfold NodeAttributeModel.flags
    cases hv : index.isValid
    · simp [ItemFlags.none]
    · by_cases hc : index.column = NodeAttributeModel.COL_VALUE
      · simp [hc, ItemFlags.insert]
      · simp [hc, hbase]
  · intro m index value role hrej
    have hcount : m.rowCount ⟨-1, -1, false⟩ = m.m_rows.length := by
      simp [NodeAttributeModel.rowCount, QModelIndex.isValid]
    rw [hcount] at hrej
    exact setData_rejected m index value role hrej

theorem NodeAttributeModel_only_value_editable_witness :
    (∀ index, qtTableFlags index .ItemIsEditable = false) ∧
    ((∀ index : QModelIndex,
      NodeAttributeModel.flags qtTableFlags index .ItemIsEditable = true ↔
        index.isValid = true ∧ index.column = NodeAttributeModel.COL_VALUE) ∧
    (∀ (m : NodeAttributeModel) (index : QModelIndex) (value : QVariant) (role : Int),
      (index.isValid = false ∨ ¬ index.row < m.rowCount ⟨-1, -1, false⟩ ∨ role ≠ Qt.EditRole
        ∨ index.column ≠ NodeAttributeModel.COL_VALUE) →
      m.setData index value role = (false, m, []))) :=
  have hbase : ∀ index, qtTableFlags index .ItemIsEditable = false := by
    intro index
    unfold qtTableFlags
    cases index.isValid <;> simp [ItemFlags.none]
  ⟨hbase, NodeAttributeModel_only_value_editable qtTableFlags hbase⟩

/-- C14: a successful `setData` on row `r` with value `x` puts the string form of `x` in
the value field of row `r` and changes nothing else (node name and node type of row `r`,
every other row, the row count, the current attribute name); `data(index, EditRole)`
then returns that string; exactly one `valueChanged` signal is emitted, with the node
name of row `r`, the current attribute name and the new string. -/
theorem NodeAttributeModel_setData_frame (m : NodeAttributeModel) (index : QModelIndex)
    (x : QVariant) (role : Int) (hok : (m.setData index x role).1 = true) :
    ∃ row : NodeRow,
      m.m_rows[index.row.toNat]? = some row ∧
      (m.setData index x role).2.1.m_rows[index.row.toNat]?
        = some ⟨row.nodeName, row.nodeType, x.toString⟩ ∧
      (∀ j : Nat, j ≠ index.row.toNat →
        (m.setData index x role).2.1.m_rows[j]? = m.m_rows[j]?) ∧
      (m.setData index x role).2.1.rowCount ⟨-1, -1, false⟩ = m.rowCount ⟨-1, -1, false⟩ ∧
      (m.setData index x role).2.1.m_currentAttrName = m.m_currentAttrName ∧
      (m.setData index x role).2.1.data index Qt.EditRole = .string x.toString ∧
      (m.setData index x role).2.2.filter
          (fun s => match s with
            | .valueChanged _ _ _ => true
            | _ => false)
        = [.valueChanged row.nodeName m.m_currentAttrName x.toString] := by
  unfold NodeAttributeModel.setData at hok ⊢
  by_cases h1 : index.isValid = false ∨ index.row ≥ m.m_rows.length ∨ role ≠ Qt.EditRole
  · rw [if_pos h1] at hok; exact absurd hok (by simp)
  rw [if_neg h1] at hok ⊢
  by_cases h2 : index.column ≠ NodeAttributeModel.COL_VALUE
  · rw [if_pos h2] at hok; exact absurd hok (by simp)
  rw [if_neg h2] at hok ⊢
  have hvalid : index.isValid = true := by
    cases hb : index.isValid
    · exact absurd (Or.inl hb) h1
    · rfl
  have hrow : index.row < m.m_rows.length := by
    by_contra hc; exact h1 (Or.inr (Or.inl (not_lt.mp hc)))
  have hnonneg : 0 ≤ index.row := by
    simp only [QModelIndex.isValid, Bool.and_eq_true, decide_eq_true_eq] at hvalid
    exact hvalid.1.1
  have hcol : index.column = NodeAttributeModel.COL_VALUE := not_not.mp h2
  have hlt : index.row.toNat < m.m_rows.length := by omega
  have hget : m.m_rows[index.row.toNat]? = some (m.m_rows[index.row.toNat]) :=
    List.getElem?_eq_getElem hlt
  rw [hget]
  refine ⟨m.m_rows[index.row.toNat], rfl, ?_, ?_, ?_, rfl, ?_, ?_⟩
  · simp [List.getElem?_set, hlt]
  · intro j hj
    simp [List.getElem?_set, Ne.symm hj]
  · simp [NodeAttributeModel.rowCount]
  · have hlen : ¬ (index.row ≥ ((m.m_rows.set index.row.toNat
        { m.m_rows[index.row.toNat] with value := x.toString }).length : Int)) := by
      rw [List.length_set]; omega
    simp only [NodeAttributeModel.data, hvalid, Bool.true_eq_false, false_or, if_neg hlen]
    simp [List.getElem?_set, hlt, hcol, NodeAttributeModel.COL_VALUE,
      NodeAttributeModel.COL_NODE_NAME, NodeAttributeModel.COL_NODE_TYPE]
  · simp

theorem NodeAttributeModel_setData_frame_witness :
    (sampleNodeModel.setData sampleValueIndex (.int 3) Qt.EditRole).1 = true ∧
    ∃ row : NodeRow,
      sampleNodeModel.m_rows[sampleValueIndex.row.toNat]? = some row ∧
      (sampleNodeModel.setData sampleValueIndex (.int 3) Qt.EditRole).2.1.m_rows[
          sampleValueIndex.row.toNat]?
        = some ⟨row.nodeName, row.nodeType, (QVariant.int 3).toString⟩ ∧
      (∀ j : Nat, j ≠ sampleValueIndex.row.toNat →
        (sampleNodeModel.setData sampleValueIndex (.int 3) Qt.EditRole).2.1.m_rows[j]?
          = sampleNodeModel.m_rows[j]?) ∧
      (sampleNodeModel.setData sampleValueIndex (.int 3) Qt.EditRole).2.1.rowCount
          ⟨-1, -1, false⟩ = sampleNodeModel.rowCount ⟨-1, -1, false⟩ ∧
      (sampleNodeModel.setData sampleValueIndex (.int 3) Qt.EditRole).2.1.m_currentAttrName
        = sampleNodeModel.m_currentAttrName ∧
      (sampleNodeModel.setData sampleValueIndex (.int 3) Qt.EditRole).2.1.data
          sampleValueIndex Qt.EditRole = .string (QVariant.int 3).toString ∧
      (sampleNodeModel.setData sampleValueIndex (.int 3) Qt.EditRole).2.2.filter
          (fun s => match s with
            | .valueChanged _ _ _ => true
            | _ => false)
        = [.valueChanged row.nodeName sampleNodeModel.m_currentAttrName
            (QVariant.int 3).toString] :=
  ⟨by decide, NodeAttributeModel_setData_frame sampleNodeModel sampleValueIndex (.int 3)
    Qt.EditRole (by decide)⟩

/-! ## Order of the map -/

theorem strcmp_lt_trans : ∀ a b c : MString, strcmp a b < 0 → strcmp b c < 0 → strcmp a c < 0
  | [], [], _ => fun h _ => absurd h (by simp [strcmp])
  | [], _ :: _, [] => fun _ h => absurd h (by simp [strcmp])
  | [], _ :: _, _ :: _ => fun _ _ => by simp [strcmp]
  | _ :: _, [], _ => fun h _ => absurd h (by simp [strcmp])
  | _ :: _, _ :: _, [] => fun _ h => absurd h (by simp [strcmp])
  | x :: xs, y :: ys, z :: zs => by
    intro h1 h2
    simp only [strcmp] at h1 h2 ⊢
    by_cases hxy : x < y
    · by_cases hyz : y < z
      · rw [if_pos (lt_trans hxy hyz)]; decide
      · rw [if_neg hyz] at h2
        by_cases hzy : z < y
        · rw [if_pos hzy] at h2; exact absurd h2 (by decide)
        · have : y = z := by omega
          subst this
          rw [if_pos hxy]; decide
    · rw [if_neg hxy] at h1
      by_cases hyx : y < x
      · rw [if_pos hyx] at h1; exact absurd h1 (by decide)
      · rw [if_neg hyx] at h1
        have hx : x = y := by omega
        subst hx
        by_cases hyz : x < z
        · rw [if_pos hyz]; decide
        · rw [if_neg hyz] at h2 ⊢
          by_cases hzy : z < x
          · rw [if_pos hzy] at h2; exact absurd h2 (by decide)
          · rw [if_neg hzy] at h2 ⊢
            exact strcmp_lt_trans xs ys zs h1 h2

theorem MStringLess_iff (a b : MString) : MStringLess a b = true ↔ strcmp a b < 0 := by
  simp [MStringLess]

theorem mem_assignEntry {V : Type} (k : MString) (v : V) (l : List (MString × V))
    (e : MString × V) (he : e ∈ assignEntry k v l) : e.1 = k ∨ e ∈ l := by
  induction l with
  | nil =>
    simp only [assignEntry, List.mem_singleton] at he
    exact Or.inl (by rw [he])
  | cons e0 rest ih =>
    obtain ⟨k', v'⟩ := e0
    simp only [assignEntry] at he
    by_cases h1 : MStringLess k k' = true
    · rw [if_pos h1] at he
      rcases List.mem_cons.mp he with h | h
      · exact Or.inl (by rw [h])
      · exact Or.inr h
    · rw [if_neg h1] at he
      by_cases h2 : MStringLess k' k = true
      · rw [if_pos h2] at he
        rcases List.mem_cons.mp he with h | h
        · exact Or.inr (by rw [h]; exact List.mem_cons_self _ _)
        · rcases ih h with h' | h'
          · exact Or.inl h'
          · exact Or.inr (List.mem_cons_of_mem _ h')
      · rw [if_neg h2] at he
        have hk : k' = k := (keyEquiv_iff k' k).1 (by simp [h1, h2])
        rcases List.mem_cons.mp he with h | h
        · exact Or.inl (by rw [h]; exact hk)
        · exact Or.inr (List.mem_cons_of_mem _ h)

theorem assignEntry_ordered {V : Type} (k : MString) (v : V) (l : List (MString × V))
    (hl : l.Pairwise fun a b => strcmp a.1 b.1 < 0) :
    (assignEntry k v l).Pairwise fun a b => strcmp a.1 b.1 < 0 := by
  induction l with
  | nil => simp [assignEntry]
  | cons e0 rest ih =>
    obtain ⟨k', v'⟩ := e0
    obtain ⟨hhead, hrest⟩ := List.pairwise_cons.mp hl
    simp only [assignEntry]
    by_cases h1 : MStringLess k k' = true
    · rw [if_pos h1]
      have hkk : strcmp k k' < 0 := (MStringLess_iff k k').1 h1
      refine List.pairwise_cons.mpr ⟨?_, hl⟩
      intro e he
      rcases List.mem_cons.mp he with h | h
      · rw [h]; exact hkk
      · exact strcmp_lt_trans _ _ _ hkk (hhead e h)
    · rw [if_neg h1]
      by_cases h2 : MStringLess k' k = true
      · rw [if_pos h2]
        refine List.pairwise_cons.mpr ⟨?_, ih hrest⟩
        intro e he
        rcases mem_assignEntry k v rest e he with h | h
        · rw [h]; exact (MStringLess_iff k' k).1 h2
        · exact hhead e h
      · rw [if_neg h2]
        exact List.pairwise_cons.mpr ⟨hhead, hrest⟩

theorem StdMap.assign_ordered {V : Type} (m : StdMap V) (k : MString) (v : V)
    (hm : m.Ordered) : (m.assign k v).Ordered :=
  assignEntry_ordered k v m.entries hm

theorem StdMap.keys_nodup {V : Type} (m : StdMap V) (hm : m.Ordered) : m.keys.Nodup := by
  unfold StdMap.keys StdMap.Ordered at *
  rw [List.Nodup, List.pairwise_map]
  refine List.Pairwise.imp ?_ hm
  intro a b hab heq
  rw [heq, strcmp_self] at hab
  exact absurd hab (by decide)

theorem StdMap.mem_keys_iff {V : Type} (m : StdMap V) (k : MString) :
    k ∈ m.keys ↔ (m.find k).isSome = true := by
  unfold StdMap.keys StdMap.find
  induction m.entries with
  | nil => simp [findEntry_nil]
  | cons e rest ih =>
    obtain ⟨k', v⟩ := e
    rw [findEntry_cons, List.map_cons, List.mem_cons]
    by_cases hk : k' = k
    · simp [hk]
    · rw [if_neg hk, ← ih]
      constructor
      · rintro (h | h)
        · exact absurd h.symm hk
        · exact h
      · exact Or.inr

theorem recordAttribute_ordered (s : ExtraAttrScanner) (n : NodeObj) (a : AttrObj)
    (name : MString) (hs : s.m_attributeInfoMap.Ordered) :
    (recordAttribute s n a name).m_attributeInfoMap.Ordered := by
  unfold recordAttribute
  cases s.m_attributeInfoMap.find name <;> exact StdMap.assign_ordered _ _ _ hs

theorem scanAttribute_ordered (h : Host) (n : NodeObj) (s : ExtraAttrScanner) (i : Nat)
    (hs : s.m_attributeInfoMap.Ordered) : (scanAttribute h n s i).m_attributeInfoMap.Ordered := by
  unfold scanAttribute
  simp only
  split_ifs
  all_goals first | exact hs | exact recordAttribute_ordered s n _ _ hs

theorem foldl_invariant {α β : Type} (P : β → Prop) (f : β → α → β)
    (hf : ∀ b a, P b → P (f b a)) : ∀ (l : List α) (b : β), P b → P (l.foldl f b) := by
  intro l
  induction l with
  | nil => intro b hb; exact hb
  | cons a l ih => intro b hb; exact ih (f b a) (hf b a hb)

theorem scanNode_ordered (h : Host) (s : ExtraAttrScanner) (n : NodeObj)
    (hs : s.m_attributeInfoMap.Ordered) : (scanNode h s n).m_attributeInfoMap.Ordered := by
  unfold scanNode
  split_ifs
  all_goals first
    | exact hs
    | exact foldl_invariant (fun s => s.m_attributeInfoMap.Ordered) _
        (fun b i hb => scanAttribute_ordered h n b i hb) _ s hs

theorem scanStep_ordered (h : Host) (s : ExtraAttrScanner) (it : NodeObj × MStatus)
    (hs : s.m_attributeInfoMap.Ordered) : (scanStep h s it).m_attributeInfoMap.Ordered := by
  unfold scanStep
  split_ifs
  · exact hs
  · exact scanNode_ordered h s it.1 hs

theorem scanScene_ordered (h : Host) (s0 : ExtraAttrScanner) :
    (scanScene h s0).2.1.m_attributeInfoMap.Ordered := by
  have hempty : s0.clearCache.m_attributeInfoMap.Ordered := List.Pairwise.nil
  unfold scanScene
  split_ifs
  · exact hempty
  · exact foldl_invariant (fun s => s.m_attributeInfoMap.Ordered) _
      (fun b it hb => scanStep_ordered h b it hb) _ _ hempty

/-! ## ExtraAttrModel: loading -/

theorem foldl_append_singleton {α β : Type} (f : α → β) :
    ∀ (l : List α) (acc : List β),
      l.foldl (fun rows x => rows ++ [f x]) acc = acc ++ l.map f := by
  intro l
  induction l with
  | nil => intro acc; simp
  | cons x l ih => intro acc; simp [ih]

theorem loadFromScanner_eq_map (fromUtf8 : MString → QString) (m : ExtraAttrModel)
    (s : ExtraAttrScanner) :
    (m.loadFromScanner fromUtf8 s).1.m_rows
      = s.m_attributeInfoMap.entries.map (attributeRowOf fromUtf8) := by
  simp [ExtraAttrModel.loadFromScanner, foldl_append_singleton]

/-- C12: after `loadFromScanner` on a scanner that has scanned, the model has one row per
entry of the attribute-info map, the entries being in strictly ascending `strcmp` order of
attribute name; row `i` has the name, type name, usage count and array flag of entry `i`;
and the rows do not depend on the rows the model had before. -/
theorem loadFromScanner_rows (fromUtf8 : MString → QString) (h : Host)
    (s0 : ExtraAttrScanner) (m : ExtraAttrModel) :
    ((m.loadFromScanner fromUtf8 (scanScene h s0).2.1).1.rowCount ⟨-1, -1, false⟩
        = (scanScene h s0).2.1.m_attributeInfoMap.size) ∧
    ((scanScene h s0).2.1.m_attributeInfoMap.entries.Pairwise
        fun a b => strcmp a.1 b.1 < 0) ∧
    (∀ i : Nat,
      (m.loadFromScanner fromUtf8 (scanScene h s0).2.1).1.m_rows[i]?
        = ((scanScene h s0).2.1.m_attributeInfoMap.entries[i]?).map fun e =>
            { name := fromUtf8 e.1, typeName := fromUtf8 e.2.typeName,
              usageCount := e.2.usageCount, isArray := e.2.isArray, info := e.2 }) ∧
    (∀ m2 : ExtraAttrModel,
      (m2.loadFromScanner fromUtf8 (scanScene h s0).2.1).1
        = (m.loadFromScanner fromUtf8 (scanScene h s0).2.1).1) := by
  refine ⟨?_, scanScene_ordered h s0, ?_, fun m2 => rfl⟩
  · simp [ExtraAttrModel.rowCount, QModelIndex.isValid, loadFromScanner_eq_map, StdMap.size]
  · intro i
    rw [loadFromScanner_eq_map, List.getElem?_map]
    rfl

/-! ## Statistics -/

theorem recordAttribute_total (s : ExtraAttrScanner) (n : NodeObj) (a : AttrObj)
    (name : MString) :
    (recordAttribute s n a name).m_totalNodesScanned = s.m_totalNodesScanned := by
  unfold recordAttribute
  cases s.m_attributeInfoMap.find name <;> rfl

theorem scanAttribute_total (h : Host) (n : NodeObj) (s : ExtraAttrScanner) (i : Nat) :
    (scanAttribute h n s i).m_totalNodesScanned = s.m_totalNodesScanned := by
  unfold scanAttribute
  simp only
  split_ifs
  all_goals first | rfl | exact recordAttribute_total s n _ _

theorem scanNode_total (h : Host) (s : ExtraAttrScanner) (n : NodeObj) :
    (scanNode h s n).m_totalNodesScanned = s.m_totalNodesScanned := by
  unfold scanNode
  split_ifs
  all_goals first
    | rfl
    | exact foldl_invariant (fun b => b.m_totalNodesScanned = s.m_totalNodesScanned) _
        (fun b i hb => (scanAttribute_total h n b i).trans hb) _ s rfl

theorem scanStep_foldl_total (h : Host) :
    ∀ (l : List (NodeObj × MStatus)) (s : ExtraAttrScanner),
      0 ≤ s.m_totalNodesScanned →
      s.m_totalNodesScanned
          + ((l.filterMap fun it => if it.2 = .kSuccess then some it.1 else none).length : Int)
        ≤ 2147483647 →
      (l.foldl (scanStep h) s).m_totalNodesScanned
        = s.m_totalNodesScanned
          + ((l.filterMap fun it => if it.2 = .kSuccess then some it.1 else none).length : Int) := by
  intro l
  induction l with
  | nil => intro s _ _; simp
  | cons it l ih =>
    intro s h0 hb
    rw [List.foldl_cons]
    by_cases hs : it.2 = .kSuccess
    · simp only [List.filterMap_cons, if_pos hs, List.length_cons, Nat.cast_add,
        Nat.cast_one] at hb ⊢
      have hstep : (scanStep h s it).m_totalNodesScanned = s.m_totalNodesScanned + 1 := by
        unfold scanStep
        rw [if_neg (not_not.mpr hs)]
        simp only
        rw [scanNode_total]
        exact toInt32_of_range _ (by omega) (by omega)
      rw [ih (scanStep h s it) (by omega) (by omega), hstep]
      omega
    · have hstep : scanStep h s it = s := by
        unfold scanStep; rw [if_pos hs]
      simp only [List.filterMap_cons, if_neg hs] at hb ⊢
      rw [hstep]
      exact ih s h0 hb

theorem mem_extraAttributeNames (h : Host) (name : MString) :
    name ∈ extraAttributeNames h ↔
      name ≠ [] ∧ ∃ p ∈ dynamicPairs h, p.2.carries name = true := by
  unfold extraAttributeNames
  rw [List.mem_filterMap]
  constructor
  · rintro ⟨p, hp, hf⟩
    by_cases hc : p.2.nameStatus = .kSuccess ∧ p.2.name ≠ []
    · rw [if_pos hc] at hf
      have hn : p.2.name = name := Option.some.inj hf
      exact ⟨hn ▸ hc.2, p, hp, by simp [AttrObj.carries, hc.1, hn]⟩
    · rw [if_neg hc] at hf; exact absurd hf (by simp)
  · rintro ⟨hne, p, hp, hcar⟩
    simp only [AttrObj.carries, decide_eq_true_eq] at hcar
    refine ⟨p, hp, ?_⟩
    rw [if_pos ⟨hcar.1, by rw [hcar.2]; exact hne⟩, hcar.2]

theorem scanScene_keys (h : Host) (s0 : ExtraAttrScanner) (hok : (scanScene h s0).1 = true)
    (name : MString) :
    name ∈ (scanScene h s0).2.1.m_attributeInfoMap.keys ↔ name ∈ extraAttributeNames h := by
  rw [StdMap.mem_keys_iff, mem_extraAttributeNames]
  rcases Tracks_scanScene h s0 hok name with ⟨hempty, hinfo, _⟩ | ⟨hne, hcar, _, info, hinfo, _⟩
  · rw [hinfo]
    simp only [Option.isSome_none, Bool.false_eq_true, false_iff, not_and]
    intro hne hex
    exact (nodesCarrying_ne_nil_iff _ _).2 hex (hempty.resolve_left hne)
  · rw [hinfo]
    simp only [Option.isSome_some, true_iff]
    exact ⟨hne, (nodesCarrying_ne_nil_iff _ _).1 hcar⟩

/-- C11: after a successful scan the keys of the attribute-info map are pairwise distinct
and `getStatistics` returns their number, which is the number of distinct extra-attribute
names of the scene, as `totalAttrs`, and the number of nodes the scan visited, with or
without an extra attribute, as `totalNodes` (each as long as it fits an `int`); after
`clearCache` both are 0. -/
theorem getStatistics_scan (h : Host) (s0 : ExtraAttrScanner)
    (hok : (scanScene h s0).1 = true) :
    (scanScene h s0).2.1.m_attributeInfoMap.keys.Nodup ∧
    ((scanScene h s0).2.1.m_attributeInfoMap.keys.length
      = (extraAttributeNames h).dedup.length) ∧
    ((scanScene h s0).2.1.m_attributeInfoMap.keys.length ≤ 2147483647 →
      (getStatistics (scanScene h s0).2.1).1
        = (scanScene h s0).2.1.m_attributeInfoMap.keys.length) ∧
    ((visitedNodes h).length ≤ 2147483647 →
      (getStatistics (scanScene h s0).2.1).2 = (visitedNodes h).length) ∧
    (∀ s : ExtraAttrScanner, getStatistics s.clearCache = (0, 0)) := by
  have hnodup := StdMap.keys_nodup _ (scanScene_ordered h s0)
  have hclear : ∀ s : ExtraAttrScanner, getStatistics s.clearCache = (0, 0) := by
    intro s
    simp [getStatistics, ExtraAttrScanner.clearCache, StdMap.size, StdMap.empty, toInt32]
  refine ⟨hnodup, ?_, ?_, ?_, hclear⟩
  · exact ((List.perm_ext_iff_of_nodup hnodup (List.nodup_dedup _)).2
      (fun name => (scanScene_keys h s0 hok name).trans List.mem_dedup.symm)).length_eq
  · intro hb
    simp only [getStatistics, StdMap.size, StdMap.keys, List.length_map] at hb ⊢
    exact toInt32_of_range _ (by omega) (by omega)
  · intro hb
    have hs : h.nodeItStatus = .kSuccess := by
      by_contra hc
      simp [scanScene, hc] at hok
    have hfold := scanStep_foldl_total h h.nodeItNodes s0.clearCache (le_refl 0)
      (by simpa [ExtraAttrScanner.clearCache, visitedNodes] using hb)
    simp only [getStatistics, scanScene, if_neg (not_not.mpr hs)]
    rw [hfold]
    simp [ExtraAttrScanner.clearCache, visitedNodes]

theorem getStatistics_scan_witness :
    (scanScene sampleHost freshScanner).1 = true ∧
    ((scanScene sampleHost freshScanner).2.1.m_attributeInfoMap.keys.Nodup ∧
    ((scanScene sampleHost freshScanner).2.1.m_attributeInfoMap.keys.length
      = (extraAttributeNames sampleHost).dedup.length) ∧
    ((scanScene sampleHost freshScanner).2.1.m_attributeInfoMap.keys.length ≤ 2147483647 →
      (getStatistics (scanScene sampleHost freshScanner).2.1).1
        = (scanScene sampleHost freshScanner).2.1.m_attributeInfoMap.keys.length) ∧
    ((visitedNodes sampleHost).length ≤ 2147483647 →
      (getStatistics (scanScene sampleHost freshScanner).2.1).2
        = (visitedNodes sampleHost).length) ∧
    (∀ s : ExtraAttrScanner, getStatistics s.clearCache = (0, 0))) :=
  ⟨by decide, getStatistics_scan sampleHost freshScanner (by decide)⟩

/-! ## Sorting -/

theorem qstringLess_swo : StrictWeakOrder qstringLess where
  irrefl a := by simp [qstringLess, strcmp_self]
  trans a b c hab hbc := by
    simp only [qstringLess, decide_eq_true_eq] at hab hbc ⊢
    exact strcmp_lt_trans a b c hab hbc
  incomp_trans a b c hab hba hbc hcb := by
    simp only [qstringLess, decide_eq_false_iff_not] at hab hba hbc hcb
    have h1 : a = b := eq_of_strcmp_not_lt a b hab hba
    have h2 : b = c := eq_of_strcmp_not_lt b c hbc hcb
    subst h1 h2
    simp [qstringLess, strcmp_self]

theorem intLess_swo : StrictWeakOrder (fun a b : Int => decide (a < b)) where
  irrefl a := by simp
  trans a b c hab hbc := by
    simp only [decide_eq_true_eq] at hab hbc ⊢
    omega
  incomp_trans a b c hab hba hbc hcb := by
    simp only [decide_eq_false_iff_not] at hab hba hbc hcb
    constructor <;> simp only [decide_eq_false_iff_not] <;> omega

theorem boolLess_swo : StrictWeakOrder (fun a b : Bool => (!a && b)) where
  irrefl a := by cases a <;> rfl
  trans a b c := by cases a <;> cases b <;> cases c <;> simp
  incomp_trans a b c := by cases a <;> cases b <;> cases c <;> simp

theorem StrictWeakOrder.comap {α κ : Type} {lt : κ → κ → Bool} (hlt : StrictWeakOrder lt)
    (key : α → κ) : StrictWeakOrder (fun a b => lt (key a) (key b)) where
  irrefl a := hlt.irrefl (key a)
  trans a b c := hlt.trans (key a) (key b) (key c)
  incomp_trans a b c := hlt.incomp_trans (key a) (key b) (key c)

theorem attributeRowLess_ascending_swo (column : Int) :
    StrictWeakOrder (ExtraAttrModel.sortLess column .AscendingOrder) := by
  unfold ExtraAttrModel.sortLess
  simp only [if_true]
  split_ifs
  · exact qstringLess_swo.comap AttributeRow.name
  · exact qstringLess_swo.comap AttributeRow.typeName
  · exact intLess_swo.comap AttributeRow.usageCount
  · exact boolLess_swo.comap AttributeRow.isArray
  · exact qstringLess_swo.comap AttributeRow.name

theorem nodeRowLess_ascending_swo (column : Int) :
    StrictWeakOrder (NodeAttributeModel.sortLess column .AscendingOrder) := by
  unfold NodeAttributeModel.sortLess
  simp only [if_true]
  split_ifs
  · exact qstringLess_swo.comap NodeRow.nodeName
  · exact qstringLess_swo.comap NodeRow.nodeType
  · exact qstringLess_swo.comap NodeRow.value
  · exact qstringLess_swo.comap NodeRow.nodeName

theorem referenceSort_contract {α : Type} :
    StdSortContract (referenceSort : (α → α → Bool) → List α → Except SortFault (List α)) := by
  intro comp l hswo
  have hasym : ∀ a b, comp a b = true → comp b a = false := by
    intro a b hab
    cases hba : comp b a
    · rfl
    · have := hswo.trans a b a hab hba
      rw [hswo.irrefl a] at this
      exact absurd this (by decide)
  haveI : IsTotal α (fun a b => comp b a = false) := ⟨by
    intro a b
    cases hba : comp b a
    · exact Or.inl rfl
    · exact Or.inr (hasym b a hba)⟩
  haveI : IsTrans α (fun a b => comp b a = false) := ⟨by
    intro a b c hba hcb
    show comp c a = false
    cases hca : comp c a
    · rfl
    · exfalso
      cases hab : comp a b
      · cases hbc : comp b c
        · have := (hswo.incomp_trans a b c hab hba hbc hcb).2
          rw [hca] at this
          exact absurd this (by decide)
        · have := hswo.trans b c a hbc hca
          rw [hba] at this
          exact absurd this (by decide)
      · have := hswo.trans c a b hca hab
        rw [hcb] at this
        exact absurd this (by decide)⟩
  exact ⟨_, rfl, List.perm_insertionSort _ l, List.sorted_insertionSort _ l⟩

/-- Ascending order, `ExtraAttrModel`: with a `std::sort` that meets its contract, `sort`
returns and leaves the rows a permutation of the rows before, non-decreasing in the key of
the column (the name column for a column out of range). -/
theorem attributeRows_sort_ascending
    (stdSort : (AttributeRow → AttributeRow → Bool) → List AttributeRow →
      Except SortFault (List AttributeRow))
    (hsort : StdSortContract stdSort) (m : ExtraAttrModel) (column : Int) :
    ∃ out, m.sort stdSort column .AscendingOrder = .ok out ∧
      out.1.m_rows.Perm m.m_rows ∧
      out.1.m_rows.Pairwise
        (fun a b => ExtraAttrModel.sortLess column .AscendingOrder b a = false) := by
  unfold ExtraAttrModel.sort
  by_cases he : m.m_rows.isEmpty = true
  · rw [if_pos he]
    have hnil : m.m_rows = [] := List.isEmpty_iff.mp he
    exact ⟨_, rfl, by simp, by simp [hnil]⟩
  · rw [if_neg he]
    obtain ⟨rows, hrows, hperm, hpair⟩ := hsort _ m.m_rows (attributeRowLess_ascending_swo column)
    rw [hrows]
    exact ⟨_, rfl, hperm, hpair⟩

/-- Ascending order, `NodeAttributeModel`: with a `std::sort` that meets its contract,
`sort` returns and leaves the rows a permutation of the rows before, non-decreasing in the
key of the column (the node name column for a column out of range). -/
theorem nodeRows_sort_ascending
    (stdSort : (NodeRow → NodeRow → Bool) → List NodeRow → Except SortFault (List NodeRow))
    (hsort : StdSortContract stdSort) (m : NodeAttributeModel) (column : Int) :
    ∃ out, m.sort stdSort column .AscendingOrder = .ok out ∧
      out.1.m_rows.Perm m.m_rows ∧
      out.1.m_rows.Pairwise
        (fun a b => NodeAttributeModel.sortLess column .AscendingOrder b a = false) := by
  unfold NodeAttributeModel.sort
  by_cases he : m.m_rows.isEmpty = true
  · rw [if_pos he]
    have hnil : m.m_rows = [] := List.isEmpty_iff.mp he
    exact ⟨_, rfl, by simp, by simp [hnil]⟩
  · rw [if_neg he]
    obtain ⟨rows, hrows, hperm, hpair⟩ := hsort _ m.m_rows (nodeRowLess_ascending_swo column)
    rw [hrows]
    exact ⟨_, rfl, hperm, hpair⟩

/-- C15, on the code: for descending order the comparison both models hand to `std::sort`
is the negation of "less", so it relates every row to itself and is no strict weak
ordering, on every column.  Under `std::sort` of the GNU C++ library the two rows of
`sampleAttrModel` still come out in an order (reversed), but seventeen rows of equal usage
count sorted by usage count in descending order, and seventeen node rows of equal node
type sorted by node type in descending order, send the partition scan past the last row:
the call reads outside the list of rows and leaves no permutation.  In ascending order the same
seventeen rows are sorted. -/
theorem sort_descending_not_strict_weak :
    (∀ (column : Int) (a : AttributeRow),
      ExtraAttrModel.sortLess column .DescendingOrder a a = true) ∧
    (∀ (column : Int) (a : NodeRow),
      NodeAttributeModel.sortLess column .DescendingOrder a a = true) ∧
    (∀ column : Int, ¬ StrictWeakOrder (ExtraAttrModel.sortLess column .DescendingOrder)) ∧
    (∀ column : Int, ¬ StrictWeakOrder (NodeAttributeModel.sortLess column .DescendingOrder)) ∧
    sampleAttrModel.sort std.sort ExtraAttrModel.COL_USAGE_COUNT .DescendingOrder
      = .ok (⟨sampleAttrModel.m_rows.reverse⟩, [.layoutAboutToBeChanged, .layoutChanged]) ∧
    equalUsageModel.m_rows.length = 17 ∧
    (∀ row ∈ equalUsageModel.m_rows, row.usageCount = 1) ∧
    equalUsageModel.sort std.sort ExtraAttrModel.COL_USAGE_COUNT .DescendingOrder
      = .error .outOfBounds ∧
    equalTypeNodeModel.sort std.sort NodeAttributeModel.COL_NODE_TYPE .DescendingOrder
      = .error .outOfBounds ∧
    (∃ out, equalUsageModel.sort std.sort ExtraAttrModel.COL_USAGE_COUNT .AscendingOrder
        = .ok out ∧
      out.1.m_rows.Perm equalUsageModel.m_rows ∧
      out.1.m_rows.Pairwise (fun a b => a.usageCount ≤ b.usageCount)) := by
  have h1 : ∀ (column : Int) (a : AttributeRow),
      ExtraAttrModel.sortLess column .DescendingOrder a a = true := by
    intro column a
    have hfalse : ExtraAttrModel.sortLess column .AscendingOrder a a = false :=
      (attributeRowLess_ascending_swo column).irrefl a
    unfold ExtraAttrModel.sortLess at hfalse ⊢
    simp only [if_true] at hfalse
    simp only [reduceCtorEq, if_false, hfalse, Bool.not_false]
  have h2 : ∀ (column : Int) (a : NodeRow),
      NodeAttributeModel.sortLess column .DescendingOrder a a = true := by
    intro column a
    have hfalse : NodeAttributeModel.sortLess column .AscendingOrder a a = false :=
      (nodeRowLess_ascending_swo column).irrefl a
    unfold NodeAttributeModel.sortLess at hfalse ⊢
    simp only [if_true] at hfalse
    simp only [reduceCtorEq, if_false, hfalse, Bool.not_false]
  refine ⟨h1, h2, ?_, ?_, ?_, ?_, ?_, ?_, ?_, ?_⟩
  · intro column hswo
    have := hswo.irrefl ⟨[], [], 0, false, ⟨[], [], .kInvalid, 0, false⟩⟩
    rw [h1] at this
    exact absurd this (by decide)
  · intro column hswo
    have := hswo.irrefl ⟨[], [], []⟩
    rw [h2] at this
    exact absurd this (by decide)
  · rfl
  · rfl
  · decide
  · rfl
  · rfl
  · exact ⟨_, rfl, by decide, by decide⟩

end ExAttr
